import Mathlib

/-!
Shallow embedding of the forge-provider-aws reconciliation pipeline.

Source files embedded here: `pkg/aws/helpers.go` (CIDR allocator),
`pkg/cloud/services/{networks,subnet,securitygroup,instances,images}`
(the client-indirection reconciler variants used by the orchestrator),
the `AWSClient` provider methods, the images direct-SDK variant
(`ensureAMIDoesNotExist` with its early return), and the
`AWSBuildReconciler` orchestrator (`reconcileNormal` / `reconcileDelete`
plus the deferred scope `Close`).

IPv4 addresses: Go's `net.IP` values produced by `net.ParseCIDR` on IPv4
input are 4-byte slices; `bytes.Compare` on two 4-byte IPs is numeric
comparison, and `incrementIP`'s per-byte carry loop is plain increment
modulo 2^32.  We therefore model an address as a `Nat` below `2^32`,
with overflow made explicit by `% 2^32`.
-/

namespace ForgeAWS

/-- 2^32, the size of the IPv4 address space. -/
def ipSpace : Nat := 2 ^ 32

/-- `ip.Mask(mask)` for a prefix mask with `ones` leading one-bits:
clears the low `32 - ones` bits of the address. -/
def maskIP (ones ip : Nat) : Nat := ip - ip % 2 ^ (32 - ones)

/-- The result of `net.ParseCIDR`: a prefix length `ones` and the
network base address (`ipNet.IP`, already masked by the parser). -/
structure IPNet where
  ones : Nat
  base : Nat
deriving DecidableEq, Repr

/-- Number of addresses covered by the block. -/
def netSize (n : IPNet) : Nat := 2 ^ (32 - n.ones)

/-- `firstIP` of `parseCIDR` in helpers.go: the (masked) base address. -/
def cidrFirst (n : IPNet) : Nat := n.base

/-- `lastIP` of `parseCIDR` in helpers.go: base OR-ed with the inverted
mask, which for a masked base is base plus (block size - 1). -/
def cidrLast (n : IPNet) : Nat := n.base + (netSize n - 1)

/-- `ipNet.Contains(ip)`: the address masked to the prefix equals the base. -/
def containsIP (n : IPNet) (ip : Nat) : Bool := maskIP n.ones ip == n.base

/-- Parsing the candidate string `"<ip>/<m>"` built by `findAvailableCIDR`:
`net.ParseCIDR` canonicalises the address by masking it to the prefix. -/
def parseCIDRBlock (m ip : Nat) : IPNet := ⟨m, maskIP m ip⟩

/-- The overlap test of `isCIDRInUse`:
`bytesCompare(candidateFirst, usedLast) <= 0 && bytesCompare(candidateLast, usedFirst) >= 0`. -/
def overlapB (a b : IPNet) : Bool :=
  decide (cidrFirst a ≤ cidrLast b) && decide (cidrFirst b ≤ cidrLast a)

/-- `isCIDRInUse`: the candidate overlaps some used block (the Go loop
returns true at the first overlapping used block). -/
def isCIDRInUse (cand : IPNet) (used : List IPNet) : Bool :=
  used.any (fun u => overlapB cand u)

/-- `incrementIP`: per-byte increment with carry on a 4-byte IP,
i.e. increment modulo 2^32. -/
def incrementIP (ip : Nat) : Nat := (ip + 1) % ipSpace

/-- The loop of `findAvailableCIDR`:
`for ip := vpcIPNet.IP.Mask(vpcIPNet.Mask); vpcIPNet.Contains(ip); incrementIP(ip)`.
Go has no fuel; the fuel argument only bounds the recursion and is chosen
large enough (block size + 1) that it is never the reason the loop stops
when the parent prefix has at least one mask bit. -/
def findLoop (vpc : IPNet) (used : List IPNet) (m : Nat) : Nat → Nat → Option Nat
  | _, 0 => none
  | ip, fuel + 1 =>
    if containsIP vpc ip then
      if isCIDRInUse (parseCIDRBlock m ip) used then
        findLoop vpc used m (incrementIP ip) fuel
      else
        some ip
    else
      none

/-- `findAvailableCIDR(vpcCIDR, usedCIDRs, subnetMask)` after the parses
succeed: returns the raw loop address of the first candidate whose
`/m` block overlaps no used block, or `none` for the
"no available CIDR block found" error. -/
def findAvailableCIDR (vpc : IPNet) (used : List IPNet) (m : Nat) : Option Nat :=
  findLoop vpc used m (maskIP vpc.ones vpc.base) (netSize vpc + 1)

/-- The sequence of candidate addresses the `findAvailableCIDR` loop
tests, in order, up to and including the returned one (all contained
addresses when the loop exhausts the parent block). -/
def testedLoop (vpc : IPNet) (used : List IPNet) (m : Nat) : Nat → Nat → List Nat
  | _, 0 => []
  | ip, fuel + 1 =>
    if containsIP vpc ip then
      ip :: (if isCIDRInUse (parseCIDRBlock m ip) used then
               testedLoop vpc used m (incrementIP ip) fuel
             else [])
    else
      []

/-- The candidate addresses tested by `findAvailableCIDR`. -/
def testedCandidates (vpc : IPNet) (used : List IPNet) (m : Nat) : List Nat :=
  testedLoop vpc used m (maskIP vpc.ones vpc.base) (netSize vpc + 1)

/-- A parsed CIDR as `net.ParseCIDR` produces it: prefix length at most 32,
base below 2^32 and already masked. -/
def wfNet (n : IPNet) : Prop :=
  n.ones ≤ 32 ∧ n.base < ipSpace ∧ n.base = maskIP n.ones n.base

/-- An address lies inside a block's range (between `parseCIDR`'s first
and last address). -/
def inBlock (n : IPNet) (a : Nat) : Prop := cidrFirst n ≤ a ∧ a ≤ cidrLast n

/-- Block `a` is fully contained in block `b`. -/
def subBlock (a b : IPNet) : Prop := cidrFirst b ≤ cidrFirst a ∧ cidrLast a ≤ cidrLast b

/-- The used blocks cover every address of the parent block. -/
def coversNet (used : List IPNet) (p : IPNet) : Prop :=
  ∀ a : Nat, inBlock p a → ∃ u ∈ used, inBlock u a



/-- The allocator's in-use predicate on a raw candidate address. -/
def candFree (used : List IPNet) (m : Nat) (ip : Nat) : Bool :=
  !isCIDRInUse (parseCIDRBlock m ip) used

/-- The addresses of the parent block in ascending order: exactly the
addresses the Go loop ranges over. -/
def candidateIPs (vpc : IPNet) : List Nat :=
  (List.range (netSize vpc)).map (fun i => vpc.base + i)

/-! ### Data model: tags, provider resources, build request/state

The provider (EC2) is modelled as lists of resources; each client method
of `AWSClient` becomes a pure function on this state.  Identifiers that
the provider would generate are produced deterministically from a
counter.  Calls that mutate provider state are recorded as `Call`
values; describe/list calls are pure reads and are not recorded. -/

/-- An EC2 tag. -/
structure Tag where
  key : String
  value : String
deriving DecidableEq, Repr

/-- The ownership-marker check shared by every `IsManaged*` method:
a tag `forge-managed=true` is present. -/
def hasManagedTag (tags : List Tag) : Bool :=
  tags.any (fun t => t.key == "forge-managed" && t.value == "true")

/-- `GetNameFromTags` of `pkg/aws/helpers.go`: value of the first `Name`
tag, or the empty string. -/
def getNameFromTags (tags : List Tag) : String :=
  match tags.find? (fun t => t.key == "Name") with
  | some t => t.value
  | none => ""

structure Vpc where
  vpcId : String
  cidr : IPNet
  tags : List Tag
deriving DecidableEq, Repr

structure Subnet where
  subnetId : String
  vpcId : String
  cidr : IPNet
  tags : List Tag
deriving DecidableEq, Repr

structure SecurityGroup where
  groupId : String
  vpcId : String
  groupName : String
  tags : List Tag
  sshIngress : Bool
deriving DecidableEq, Repr

/-- `ec2.InstanceNetworkInterfaceAssociation`: present only when the
interface has a public IP association. -/
structure Association where
  publicIp : Option String
deriving DecidableEq, Repr

/-- `ec2.InstanceNetworkInterface`; `association = none` models the nil
`Association` pointer of an interface without a public-IP association. -/
structure NetworkInterface where
  association : Option Association
deriving DecidableEq, Repr

structure Instance where
  instanceId : String
  stateName : String
  tags : List Tag
  networkInterfaces : List NetworkInterface
deriving DecidableEq, Repr

/-- An AMI as listed by `DescribeImages`; creation dates are modelled as
naturals (the RFC3339 parses in the code are assumed to succeed). -/
structure Image where
  imageId : String
  name : String
  state : String
  creationDate : Nat
deriving DecidableEq, Repr

structure InternetGateway where
  igwId : String
  attachedVpcId : Option String
deriving DecidableEq, Repr

structure RouteTable where
  routeTableId : String
  vpcId : String
  main : Bool
  hasDefaultRoute : Bool
deriving DecidableEq, Repr

/-- The provider-side world state. `nextId` generates fresh resource ids,
`now` is the provider clock stamped on created images. -/
structure Provider where
  vpcs : List Vpc
  subnets : List Subnet
  securityGroups : List SecurityGroup
  instances : List Instance
  internetGateways : List InternetGateway
  routeTables : List RouteTable
  images : List Image
  nextId : Nat
  now : Nat
deriving DecidableEq, Repr

/-- The immutable request data read from the Build/AWSBuild specs. -/
structure BuildRequest where
  name : String
  instanceType : String
  ami : Option String
  publicIP : Option Bool
  provisionersReady : Bool
  creationTime : Nat
  hasSSHKey : Bool
deriving DecidableEq, Repr

/-- The mutable BuildState persisted on the AWSBuild object (the fields
the scope setters touch). -/
structure BuildState where
  vpcID : Option String
  networkName : String
  subnetID : Option String
  securityGroupID : Option String
  instanceID : Option String
  instanceStatus : Option String
  artifactRef : Option String
  ready : Bool
  machineReady : Bool
  cleanedUP : Bool
deriving DecidableEq, Repr

/-- `AWSBuildScope.VPCName`: the configured network name if nonempty,
otherwise `<build-name>-forge-vpc`. -/
def vpcNameOf (req : BuildRequest) (bs : BuildState) : String :=
  if bs.networkName != "" then bs.networkName else req.name ++ "-forge-vpc"

/-- `AWSBuildScope.SecurityGroupName`: the configured network name if
nonempty, otherwise `<build-name>-forge`. -/
def securityGroupNameOf (req : BuildRequest) (bs : BuildState) : String :=
  if bs.networkName != "" then bs.networkName else req.name ++ "-forge"

/-- `AWSBuildScope.AMI`: `aws.StringValue` of the optional AMI field. -/
def amiOf (req : BuildRequest) : String := req.ami.getD ""

/-- `AWSBuildScope.UserData`: the generated cloud-init payload (its
contents are irrelevant to the claims; it is never nil). -/
def userDataOf (req : BuildRequest) : String := "cloud-config " ++ req.name

/-- Error taxonomy: `notFound` stands for provider errors whose code
matches `awserrors.IsNotFound`; `instanceNotTerminated` is the
`ErrInstanceNotTerminated` sentinel; everything else is a generic
(possibly wrapped) error. -/
inductive RunError where
  | notFound
  | instanceNotTerminated
  | generic (msg : String)
deriving DecidableEq, Repr

/-- `awserrors.IsInstanceNotTerminated`, i.e. `errors.Is` against the
sentinel value: identity of the error value, not string matching. -/
def isInstanceNotTerminated (e : RunError) : Bool :=
  e == RunError.instanceNotTerminated

/-- Outcome of a stage call: normal return value, error return, or a Go
runtime panic (nil-pointer dereference). -/
inductive Outcome where
  | ok
  | err (e : RunError)
  | panic (msg : String)
deriving DecidableEq, Repr

/-- Provider-mutating calls issued by the reconcilers. -/
inductive Call where
  | createVPC (id : String)
  | createSubnet (id : String)
  | createSecurityGroup (id : String)
  | runInstances (id : String)
  | createImage (name : String)
  | createInternetGateway (id : String)
  | createRoute (routeTableId : String)
  | deleteVPC (id : String)
  | deleteSubnet (id : String)
  | deleteSecurityGroup (id : String)
  | terminateInstance (id : String)
  | deregisterImage (id : String)
  | deleteInternetGateway (id : String)
deriving DecidableEq, Repr

/-- The five create calls named by the idempotence property. -/
def isCreateCall : Call → Bool
  | .createVPC _ => true
  | .createSubnet _ => true
  | .createSecurityGroup _ => true
  | .runInstances _ => true
  | .createImage _ => true
  | _ => false

/-- Result of one stage invocation: outcome, updated BuildState, updated
provider state, and the mutating calls issued (in order). -/
structure StepResult where
  res : Outcome
  bs : BuildState
  prov : Provider
  calls : List Call
deriving DecidableEq, Repr

/-! ### AWSClient operations as pure functions on the provider state -/

def freshId (p : Provider) (pre : String) : String := pre ++ toString p.nextId

def findVpc (p : Provider) (id : String) : Option Vpc :=
  p.vpcs.find? (fun v => v.vpcId == id)

def findSubnet (p : Provider) (id : String) : Option Subnet :=
  p.subnets.find? (fun s => s.subnetId == id)

def findSG (p : Provider) (id : String) : Option SecurityGroup :=
  p.securityGroups.find? (fun g => g.groupId == id)

def findInstance (p : Provider) (id : String) : Option Instance :=
  p.instances.find? (fun i => i.instanceId == id)

/-- `AWSClient.FindVPCByIDOrName`: lookup by id first (a describe error
for an unknown id is swallowed), then by `tag:Name`, else nil. -/
def findVPCByIDOrName (p : Provider) (vpcID vpcNm : Option String) : Option Vpc :=
  match vpcID.bind (findVpc p) with
  | some v => some v
  | none =>
    match vpcNm with
    | some nm =>
      p.vpcs.find? (fun v => v.tags.any (fun t => t.key == "Name" && t.value == nm))
    | none => none

/-- `AWSClient.IsManagedVPC`: describing an unknown VPC id is a provider
error, which the method propagates. -/
def isManagedVPC (p : Provider) (id : String) : Except RunError Bool :=
  match findVpc p id with
  | none => .error .notFound
  | some v => .ok (hasManagedTag v.tags)

/-- `AWSClient.FindSubnetByID`: errors when the subnet does not exist
("subnet not found" / provider not-found error). -/
def findSubnetByID (p : Provider) (id : String) : Except RunError Subnet :=
  match findSubnet p id with
  | none => .error .notFound
  | some s => .ok s

/-- `AWSClient.IsManagedSubnet`: a not-found describe is swallowed to
`(false, nil)`; otherwise the ownership tag decides. -/
def isManagedSubnet (p : Provider) (id : String) : Bool :=
  match findSubnet p id with
  | none => false
  | some s => hasManagedTag s.tags

/-- `AWSClient.IsManagedSecurityGroup`: describing an unknown group id is
a provider error, which the method propagates. -/
def isManagedSecurityGroup (p : Provider) (id : String) : Except RunError Bool :=
  match findSG p id with
  | none => .error .notFound
  | some g => .ok (hasManagedTag g.tags)

/-- `AWSClient.IsManagedInstance`: not-found is swallowed to
`(false, nil)`; otherwise the ownership tag decides. -/
def isManagedInstance (p : Provider) (id : String) : Bool :=
  match findInstance p id with
  | none => false
  | some i => hasManagedTag i.tags

/-- `AWSClient.getVPCCIDR`. -/
def getVPCCIDR (p : Provider) (vpcID : String) : Except RunError IPNet :=
  match findVpc p vpcID with
  | none => .error .notFound
  | some v => .ok v.cidr

/-- `AWSBuildScope.VPCSpec`: a fixed default 10.0.0.0/16 block
(10.0.0.0 = 167772160) plus Name and ownership tags. -/
def vpcSpecCIDR : IPNet := ⟨16, 167772160⟩

/-- `AWSClient.CreateVpc`: creates the VPC with the requested tags; the
provider also creates the VPC's main route table. -/
def createVpcOp (p : Provider) (cidr : IPNet) (tags : List Tag) :
    Vpc × Provider × List Call :=
  let id := "vpc-" ++ toString p.nextId
  let rtId := "rtb-" ++ toString (p.nextId + 1)
  let v : Vpc := ⟨id, cidr, tags⟩
  let rt : RouteTable := ⟨rtId, id, true, false⟩
  (v, { p with vpcs := v :: p.vpcs, routeTables := rt :: p.routeTables,
               nextId := p.nextId + 2 }, [.createVPC id])

/-- `AWSClient.DeleteVPC` (the VPC's route tables go with it). -/
def deleteVPCOp (p : Provider) (vpcID : String) : Provider × List Call :=
  ({ p with vpcs := p.vpcs.filter (fun v => !(v.vpcId == vpcID)),
            routeTables := p.routeTables.filter (fun r => !(r.vpcId == vpcID)) },
   [.deleteVPC vpcID])

/-- `AWSClient.CreateSubnet`: requires a VPC id, reads the VPC CIDR,
collects the CIDRs of the subnets already in the VPC, allocates a /24 via
`findAvailableCIDR`, and creates the subnet with the ownership marker. -/
def createSubnetOp (p : Provider) (vpcNm : String) (vpcID : Option String) :
    Except RunError (Subnet × Provider × List Call) :=
  match vpcID with
  | none => .error (.generic "VPC ID is not set in scope")
  | some vid =>
    match getVPCCIDR p vid with
    | .error e => .error e
    | .ok vcidr =>
      let usedCIDRs := (p.subnets.filter (fun s => s.vpcId == vid)).map (fun s => s.cidr)
      match findAvailableCIDR vcidr usedCIDRs 24 with
      | none => .error (.generic "no available CIDR block found")
      | some ip =>
        let id := freshId p "subnet-"
        let sn : Subnet := ⟨id, vid, parseCIDRBlock 24 ip,
          [⟨"Name", vpcNm ++ "-subnet"⟩, ⟨"forge-managed", "true"⟩]⟩
        .ok (sn, { p with subnets := sn :: p.subnets, nextId := p.nextId + 1 },
             [.createSubnet id])

/-- `AWSClient.DeleteSubnet`. -/
def deleteSubnetOp (p : Provider) (id : String) : Provider × List Call :=
  ({ p with subnets := p.subnets.filter (fun s => !(s.subnetId == id)) },
   [.deleteSubnet id])

/-- `AWSClient.CreateSecurityGroup`: creates the group with Name and
ownership tags (no SSH rule yet). -/
def createSecurityGroupOp (p : Provider) (vpcID sgName : String) :
    SecurityGroup × Provider × List Call :=
  let id := freshId p "sg-"
  let g : SecurityGroup := ⟨id, vpcID, sgName,
    [⟨"Name", sgName⟩, ⟨"forge-managed", "true"⟩], false⟩
  (g, { p with securityGroups := g :: p.securityGroups, nextId := p.nextId + 1 },
   [.createSecurityGroup id])

/-- `AWSClient.AuthorizeSecurityGroupIngress`: installs the fixed
TCP/22-from-anywhere rule. -/
def authorizeSecurityGroupIngressOp (p : Provider) (sgID : String) : Provider :=
  { p with securityGroups :=
      p.securityGroups.map (fun g =>
        if g.groupId == sgID then { g with sshIngress := true } else g) }

/-- `AWSClient.DeleteSecurityGroup`. -/
def deleteSecurityGroupOp (p : Provider) (id : String) : Provider × List Call :=
  ({ p with securityGroups := p.securityGroups.filter (fun g => !(g.groupId == id)) },
   [.deleteSecurityGroup id])

/-- `CreateInstanceParams` of `pkg/aws`. -/
structure CreateInstanceParams where
  name : String
  amiID : String
  instanceType : String
  userdata : String
  publicIP : Bool
  subnetID : String
  securityGroupID : String
deriving DecidableEq, Repr

/-- `AWSClient.CreateInstance`: validates AMI and instance type, then
runs one instance with Name and ownership tags and one primary network
interface.  The provider attaches a public-IP association to that
interface exactly when `AssociatePublicIpAddress` was requested; with the
flag false the interface's `Association` stays nil. -/
def createInstanceOp (p : Provider) (input : CreateInstanceParams) :
    Except RunError (Instance × Provider × List Call) :=
  if input.amiID == "" then .error (.generic "AMI ID not provided")
  else if input.instanceType == "" then .error (.generic "Instance type not provided")
  else
    let id := freshId p "i-"
    let iface : NetworkInterface :=
      ⟨if input.publicIP then some ⟨some "198.51.100.10"⟩ else none⟩
    let inst : Instance := ⟨id, "pending",
      [⟨"Name", input.name⟩, ⟨"forge-managed", "true"⟩], [iface]⟩
    .ok (inst, { p with instances := inst :: p.instances, nextId := p.nextId + 1 },
         [.runInstances id])

/-- `AWSClient.TerminateInstance`: issues the terminate call; the
provider moves the instance to `shutting-down`. -/
def terminateInstanceOp (p : Provider) (id : String) : Provider × List Call :=
  ({ p with instances := p.instances.map (fun i =>
      if i.instanceId == id then { i with stateName := "shutting-down" } else i) },
   [.terminateInstance id])

/-- `AWSClient.findInternetGateway`: first gateway attached to the VPC. -/
def findInternetGatewayOp (p : Provider) (vpcID : String) : Option InternetGateway :=
  p.internetGateways.find? (fun g => g.attachedVpcId == some vpcID)

/-- `AWSClient.configureRouteTable`: finds the VPC's main route table and
adds the default route towards the gateway.  Route creation is modelled
as succeeding also when the route already exists (the reconcile path
relies on re-running this on every pass). -/
def configureRouteTableOp (p : Provider) (vpcID : String) :
    Except RunError (Provider × List Call) :=
  match p.routeTables.find? (fun rt => rt.vpcId == vpcID && rt.main) with
  | none => .error (.generic "no main route table found for VPC")
  | some rt =>
    .ok ({ p with routeTables := p.routeTables.map (fun r =>
            if r.routeTableId == rt.routeTableId then { r with hasDefaultRoute := true } else r) },
         [.createRoute rt.routeTableId])

/-- `AWSClient.CreateOrGetInternetGateway`.  The provider state is
threaded through also on the error path: a gateway that was created and
attached before the route-table configuration failed stays attached. -/
def createOrGetInternetGatewayOp (p : Provider) (vpcID : String) :
    Except RunError InternetGateway × Provider × List Call :=
  match findInternetGatewayOp p vpcID with
  | some igw =>
    match configureRouteTableOp p vpcID with
    | .error e => (.error e, p, [])
    | .ok (p1, cs) => (.ok igw, p1, cs)
  | none =>
    let id := freshId p "igw-"
    let igw : InternetGateway := ⟨id, some vpcID⟩
    let p1 : Provider := { p with internetGateways := igw :: p.internetGateways,
                                  nextId := p.nextId + 1 }
    match configureRouteTableOp p1 vpcID with
    | .error e => (.error e, p1, [.createInternetGateway id])
    | .ok (p2, cs) => (.ok igw, p2, .createInternetGateway id :: cs)

/-- `AWSClient.DetachAndDeleteInternetGateway`: detaches and deletes
every gateway attached to the VPC. -/
def detachAndDeleteInternetGatewayOp (p : Provider) (vpcID : String) :
    Provider × List Call :=
  let igws := p.internetGateways.filter (fun g => g.attachedVpcId == some vpcID)
  ({ p with internetGateways :=
      p.internetGateways.filter (fun g => !(g.attachedVpcId == some vpcID)) },
   igws.map (fun g => .deleteInternetGateway g.igwId))

/-- `DescribeImages` filtered by name (self-owned). -/
def describeImagesByName (p : Provider) (nm : String) : List Image :=
  p.images.filter (fun i => i.name == nm)

/-- `AWSClient.EnsureAMIDoesNotExist`: deregisters every listed image of
that name created strictly before the build's creation date; images at or
after it are skipped (no early return in this client variant). -/
def ensureAMIDoesNotExistOp (p : Provider) (nm : String) (creationDate : Nat) :
    Provider × List Call :=
  let olds := (describeImagesByName p nm).filter (fun i => i.creationDate < creationDate)
  ({ p with images := p.images.filter (fun i =>
      !(i.name == nm && i.creationDate < creationDate)) },
   olds.map (fun i => .deregisterImage i.imageId))

/-- `AWSClient.CheckAMIStatus`: id and state of the first listed image of
that name, or empty strings. -/
def checkAMIStatusOp (p : Provider) (nm : String) : String × String :=
  match describeImagesByName p nm with
  | [] => ("", "")
  | img :: _ => (img.imageId, img.state)

/-- `AWSClient.CreateAMI`: no-reboot image creation; the new image starts
out pending, stamped with the provider clock. -/
def createAMIOp (p : Provider) (nm : String) : Provider × List Call :=
  let id := freshId p "ami-"
  ({ p with images := ⟨id, nm, "pending", p.now⟩ :: p.images, nextId := p.nextId + 1 },
   [.createImage nm])

/-! ### The five reconcilers (client-indirection variants, as wired into
the orchestrator) -/

/-- `networks.Service.createOrGetVPC`: find by id or name and adopt
(recording id and the Name tag), else create from the VPC spec and record
id and the computed name. -/
def createOrGetVPC (req : BuildRequest) (bs : BuildState) (p : Provider) :
    Except RunError Vpc × BuildState × Provider × List Call :=
  let nm := vpcNameOf req bs
  match findVPCByIDOrName p bs.vpcID (some nm) with
  | some v =>
    (.ok v, { bs with vpcID := some v.vpcId, networkName := getNameFromTags v.tags }, p, [])
  | none =>
    let tags : List Tag := [⟨"Name", nm⟩, ⟨"forge-managed", "true"⟩]
    let (v, p1, cs) := createVpcOp p vpcSpecCIDR tags
    (.ok v, { bs with vpcID := some v.vpcId, networkName := nm }, p1, cs)

/-- `networks.Service.Reconcile`. -/
def networksReconcile (req : BuildRequest) (bs : BuildState) (p : Provider) : StepResult :=
  match createOrGetVPC req bs p with
  | (.error e, bs1, p1, cs1) => ⟨.err e, bs1, p1, cs1⟩
  | (.ok v, bs1, p1, cs1) =>
    match createOrGetInternetGatewayOp p1 v.vpcId with
    | (.error e, p2, cs2) => ⟨.err e, bs1, p2, cs1 ++ cs2⟩
    | (.ok _, p2, cs2) => ⟨.ok, bs1, p2, cs1 ++ cs2⟩

/-- `networks.Service.Delete`. -/
def networksDelete (req : BuildRequest) (bs : BuildState) (p : Provider) : StepResult :=
  match bs.vpcID with
  | none => ⟨.ok, bs, p, []⟩
  | some vid =>
    match isManagedVPC p vid with
    | .error e => ⟨.err e, bs, p, []⟩
    | .ok false => ⟨.ok, bs, p, []⟩
    | .ok true =>
      let (p1, cs1) := detachAndDeleteInternetGatewayOp p vid
      let (p2, cs2) := deleteVPCOp p1 vid
      ⟨.ok, bs, p2, cs1 ++ cs2⟩

/-- `subnet.Service.Reconcile`: a user-specified subnet id is looked up
and adopted verbatim (no tagging); otherwise a subnet is created. -/
def subnetReconcile (req : BuildRequest) (bs : BuildState) (p : Provider) : StepResult :=
  match bs.subnetID with
  | some id =>
    match findSubnetByID p id with
    | .error e => ⟨.err e, bs, p, []⟩
    | .ok sn => ⟨.ok, { bs with subnetID := some sn.subnetId }, p, []⟩
  | none =>
    match createSubnetOp p (vpcNameOf req bs) bs.vpcID with
    | .error e => ⟨.err e, bs, p, []⟩
    | .ok (sn, p1, cs) => ⟨.ok, { bs with subnetID := some sn.subnetId }, p1, cs⟩

/-- `subnet.Service.Delete`. -/
def subnetDelete (req : BuildRequest) (bs : BuildState) (p : Provider) : StepResult :=
  match bs.subnetID with
  | none => ⟨.ok, bs, p, []⟩
  | some id =>
    if isManagedSubnet p id then
      let (p1, cs) := deleteSubnetOp p id
      ⟨.ok, bs, p1, cs⟩
    else ⟨.ok, bs, p, []⟩

/-- `securitygroup.Service.Reconcile`. -/
def securityGroupReconcile (req : BuildRequest) (bs : BuildState) (p : Provider) : StepResult :=
  match bs.securityGroupID with
  | some _ => ⟨.ok, bs, p, []⟩
  | none =>
    match bs.vpcID with
    | none => ⟨.err (.generic "VPC ID is required to create a Security Group"), bs, p, []⟩
    | some vid =>
      let (g, p1, cs) := createSecurityGroupOp p vid (securityGroupNameOf req bs)
      let p2 := authorizeSecurityGroupIngressOp p1 g.groupId
      ⟨.ok, { bs with securityGroupID := some g.groupId }, p2, cs⟩

/-- `securitygroup.Service.Delete`: the instance-lifecycle gate runs
first and dereferences the tracked status pointer
(`*s.scope.InstanceState()`), which is nil when the status was never
set; only then are the security-group id and ownership consulted. -/
def securityGroupDelete (req : BuildRequest) (bs : BuildState) (p : Provider) : StepResult :=
  match bs.instanceStatus with
  | none => ⟨.panic "invalid memory address or nil pointer dereference", bs, p, []⟩
  | some st =>
    if st != "TERMINATED" then ⟨.err .instanceNotTerminated, bs, p, []⟩
    else
      match bs.securityGroupID with
      | none => ⟨.ok, bs, p, []⟩
      | some id =>
        match isManagedSecurityGroup p id with
        | .error e => ⟨.err e, bs, p, []⟩
        | .ok false => ⟨.ok, bs, p, []⟩
        | .ok true =>
          let (p1, cs) := deleteSecurityGroupOp p id
          ⟨.ok, bs, p1, cs⟩

/-- The result of `instances.Service.createOrGetInstance`. -/
inductive InstStep where
  | found (inst : Instance) (p : Provider) (calls : List Call)
  | failed (e : RunError)
  | panicked (msg : String)
deriving DecidableEq, Repr

/-- The creation half of `createOrGetInstance`: the parameter struct
dereferences `*SubnetID()`, `*SecurityGroupID()` and `*PublicIP()`,
panicking when any of them is nil; `UserData()` is never nil. -/
def createInstancePath (req : BuildRequest) (bs : BuildState) (p : Provider) : InstStep :=
  match bs.subnetID with
  | none => .panicked "invalid memory address or nil pointer dereference"
  | some sid =>
    match bs.securityGroupID with
    | none => .panicked "invalid memory address or nil pointer dereference"
    | some gid =>
      match req.publicIP with
      | none => .panicked "invalid memory address or nil pointer dereference"
      | some pub =>
        match createInstanceOp p
          { name := req.name, amiID := amiOf req, instanceType := req.instanceType,
            userdata := userDataOf req, publicIP := pub,
            subnetID := sid, securityGroupID := gid } with
        | .error e => .failed e
        | .ok (inst, p1, cs) => .found inst p1 cs

/-- `instances.Service.createOrGetInstance`: an already-recorded instance
id is looked up; if the instance still exists it is adopted, otherwise
(and when no id is recorded) a new instance is created. -/
def createOrGetInstance (req : BuildRequest) (bs : BuildState) (p : Provider) : InstStep :=
  match bs.instanceID with
  | some id =>
    match findInstance p id with
    | some inst => .found inst p []
    | none => createInstancePath req bs p
  | none => createInstancePath req bs p

/-- The public-address derivation of `instances.Service.Reconcile`:
`len(instance.NetworkInterfaces) > 0 && instance.NetworkInterfaces[0].Association.PublicIp != nil`.
The length of the interface list is guarded, the nil-ness of
`Association` is not: a present first interface without an association
dereferences a nil pointer. -/
def derivePublicIP (ifaces : List NetworkInterface) : Except String String :=
  match ifaces with
  | [] => .ok ""
  | iface :: _ =>
    match iface.association with
    | none => .error "invalid memory address or nil pointer dereference"
    | some a =>
      match a.publicIp with
      | some ip => .ok ip
      | none => .ok ""

/-- `instances.Service.Reconcile`: resolve the instance, record its id,
derive the public address, ensure the credentials secret (a collaborator,
modelled as succeeding), and mirror the uppercased provider state. -/
def instancesReconcile (req : BuildRequest) (bs : BuildState) (p : Provider) : StepResult :=
  match createOrGetInstance req bs p with
  | .failed e => ⟨.err e, bs, p, []⟩
  | .panicked m => ⟨.panic m, bs, p, []⟩
  | .found inst p1 cs =>
    let bs1 := { bs with instanceID := some inst.instanceId }
    match derivePublicIP inst.networkInterfaces with
    | .error m => ⟨.panic m, bs1, p1, cs⟩
    | .ok _ =>
      let bs2 := { bs1 with instanceStatus := some inst.stateName.toUpper }
      ⟨.ok, bs2, p1, cs⟩

/-- `instances.Service.Delete`: ownership gate, then state mirroring and
a terminate call unless termination is already in flight. -/
def instancesDelete (req : BuildRequest) (bs : BuildState) (p : Provider) : StepResult :=
  match bs.instanceID with
  | none => ⟨.ok, bs, p, []⟩
  | some id =>
    if isManagedInstance p id then
      match findInstance p id with
      | none =>
        -- FindInstanceByID reports not-found as (nil, nil); the code then
        -- dereferences `instance.State`, a nil pointer.  Unreachable here
        -- because the ownership check above just found the instance.
        ⟨.panic "invalid memory address or nil pointer dereference", bs, p, []⟩
      | some inst =>
        let bs1 := { bs with instanceStatus := some inst.stateName.toUpper }
        if inst.stateName == "terminated" || inst.stateName == "shutting-down" then
          ⟨.ok, bs1, p, []⟩
        else
          let (p1, cs) := terminateInstanceOp p id
          ⟨.ok, { bs1 with instanceStatus := some "Terminating" }, p1, cs⟩
    else ⟨.ok, bs, p, []⟩

/-- `images.Service.Reconcile` (client variant): gated on provisioner
readiness, then staleness sweep, then the status switch keyed by name
lookup. -/
def imagesReconcile (req : BuildRequest) (bs : BuildState) (p : Provider) : StepResult :=
  if !req.provisionersReady || bs.ready then ⟨.ok, bs, p, []⟩
  else
    match bs.instanceID with
    | none => ⟨.err (.generic "instance ID is not set, cannot create image"), bs, p, []⟩
    | some _ =>
      let nm := req.name
      let (p1, cs1) := ensureAMIDoesNotExistOp p nm req.creationTime
      let (amiID, amiState) := checkAMIStatusOp p1 nm
      if amiState == "available" then
        ⟨.ok, { bs with artifactRef := some amiID }, p1, cs1⟩
      else if amiState == "pending" then
        ⟨.ok, bs, p1, cs1⟩
      else
        let (p2, cs2) := createAMIOp p1 nm
        ⟨.ok, bs, p2, cs1 ++ cs2⟩

/-- `images.Service.Delete`: exported images are never deleted. -/
def imagesDelete (req : BuildRequest) (bs : BuildState) (p : Provider) : StepResult :=
  ⟨.ok, bs, p, []⟩

/-! ### The images direct-SDK variant (`ensureAMIDoesNotExist` with the
early return), cited by the image-staleness property -/

/-- The loop body of the service-level `ensureAMIDoesNotExist`: walk the
listed images in order and collect stale ones to deregister; on the first
image created at or after the build's creation time the function returns
early (leaving any later-listed stale images untouched). -/
def ensureAMIScan (buildTime : Nat) : List Image → List String
  | [] => []
  | img :: rest =>
    if img.creationDate < buildTime then img.imageId :: ensureAMIScan buildTime rest
    else []

/-- `images.Service.ensureAMIDoesNotExist` (direct-SDK variant): describe
by name, deregister the scanned stale ids. -/
def ensureAMIDoesNotExistDirect (p : Provider) (nm : String) (buildTime : Nat) :
    Provider × List Call :=
  let ids := ensureAMIScan buildTime (describeImagesByName p nm)
  ({ p with images := p.images.filter (fun i => !(ids.contains i.imageId)) },
   ids.map (fun i => .deregisterImage i))

/-- `images.Service.Reconcile` (direct-SDK variant): identical control
flow, but the staleness sweep has the early return. -/
def imagesReconcileDirect (req : BuildRequest) (bs : BuildState) (p : Provider) : StepResult :=
  if !req.provisionersReady || bs.ready then ⟨.ok, bs, p, []⟩
  else
    match bs.instanceID with
    | none => ⟨.err (.generic "instance ID is not set, cannot create image"), bs, p, []⟩
    | some _ =>
      let nm := req.name
      let (p1, cs1) := ensureAMIDoesNotExistDirect p nm req.creationTime
      let (amiID, amiState) := checkAMIStatusOp p1 nm
      if amiState == "available" then
        ⟨.ok, { bs with artifactRef := some amiID }, p1, cs1⟩
      else if amiState == "pending" then
        ⟨.ok, bs, p1, cs1⟩
      else
        let (p2, cs2) := createAMIOp p1 nm
        ⟨.ok, bs, p2, cs1 ++ cs2⟩

/-! ### Orchestrator (`AWSBuildReconciler`) -/

/-- The five pipeline stages. -/
inductive Stage where
  | network
  | subnet
  | securityGroup
  | instances
  | imageExport
deriving DecidableEq, Repr

/-- Dispatch `Reconcile` per stage. -/
def runReconcileStage : Stage → BuildRequest → BuildState → Provider → StepResult
  | .network => networksReconcile
  | .subnet => subnetReconcile
  | .securityGroup => securityGroupReconcile
  | .instances => instancesReconcile
  | .imageExport => imagesReconcile

/-- Dispatch `Delete` per stage. -/
def runDeleteStage : Stage → BuildRequest → BuildState → Provider → StepResult
  | .network => networksDelete
  | .subnet => subnetDelete
  | .securityGroup => securityGroupDelete
  | .instances => instancesDelete
  | .imageExport => imagesDelete

/-- `reconcileDelete` runs stage deletes in this order. -/
def deleteOrder : List Stage := [.instances, .securityGroup, .subnet, .network]

/-- `reconcileNormal` runs stage reconciles in this order. -/
def normalOrder : List Stage := [.network, .subnet, .securityGroup, .instances, .imageExport]

/-- Result of one orchestrator invocation. -/
inductive RecResult where
  | done
  | requeueAfter (seconds : Nat)
  | failedWith (e : RunError)
  | panicked (msg : String)
deriving DecidableEq, Repr

/-- Observable orchestrator events: provider calls and persistence of the
BuildState to the backing store (a `PatchObject`). -/
inductive Event where
  | call (c : Call)
  | persist (bs : BuildState)
deriving DecidableEq, Repr

def isPersistEvent : Event → Bool
  | .persist _ => true
  | _ => false

/-- Outcome of an orchestrator invocation: scheduling result, final
in-memory BuildState and provider state, events in order, and whether the
finalizer was added/removed during this pass. -/
structure RecOut where
  result : RecResult
  bs : BuildState
  prov : Provider
  events : List Event
  finalizerAdded : Bool
  finalizerRemoved : Bool
deriving DecidableEq, Repr

/-- The delete loop of `reconcileDelete`: run each stage's `Delete`; on
the `ErrInstanceNotTerminated` sentinel requeue after 5 seconds, on any
other error fail the pass; only when every stage succeeded remove the
finalizer and set CleanedUP. -/
def runDeleteLoop (req : BuildRequest) :
    List Stage → BuildState → Provider → List Event → RecOut
  | [], bs, p, evs => ⟨.done, { bs with cleanedUP := true }, p, evs, false, true⟩
  | st :: rest, bs, p, evs =>
    let r := runDeleteStage st req bs p
    let evs1 := evs ++ r.calls.map Event.call
    match r.res with
    | .ok => runDeleteLoop req rest r.bs r.prov evs1
    | .err e =>
      if isInstanceNotTerminated e then ⟨.requeueAfter 5, r.bs, r.prov, evs1, false, false⟩
      else ⟨.failedWith e, r.bs, r.prov, evs1, false, false⟩
    | .panic m => ⟨.panicked m, r.bs, r.prov, evs1, false, false⟩

/-- `AWSBuildReconciler.reconcileDelete`. -/
def reconcileDelete (req : BuildRequest) (bs : BuildState) (p : Provider) : RecOut :=
  runDeleteLoop req deleteOrder bs p []

/-- The reconcile loop of `reconcileNormal`: run each stage's
`Reconcile`, stopping at the first error. -/
def runNormalLoop (req : BuildRequest) :
    List Stage → BuildState → Provider → List Event → Outcome × BuildState × Provider × List Event
  | [], bs, p, evs => (.ok, bs, p, evs)
  | st :: rest, bs, p, evs =>
    let r := runReconcileStage st req bs p
    let evs1 := evs ++ r.calls.map Event.call
    match r.res with
    | .ok => runNormalLoop req rest r.bs r.prov evs1
    | other => (other, r.bs, r.prov, evs1)

/-- The tail of `reconcileNormal` after the not-ready block: hand off to
the delete pipeline when the build is ready but not cleaned up, otherwise
requeue until an instance id and then an artifact exist, finally marking
the build ready. -/
def reconcileNormalTail (req : BuildRequest) (bs : BuildState) (p : Provider)
    (evs : List Event) (finAdded : Bool) : RecOut :=
  if bs.ready && !bs.cleanedUP then
    let d := reconcileDelete req bs p
    ⟨d.result, d.bs, d.prov, evs ++ d.events, finAdded, d.finalizerRemoved⟩
  else
    match bs.instanceID with
    | none => ⟨.requeueAfter 5, bs, p, evs, finAdded, false⟩
    | some _ =>
      let bs1 := { bs with machineReady := true }
      match bs1.artifactRef with
      | none => ⟨.requeueAfter 5, bs1, p, evs, finAdded, false⟩
      | some _ => ⟨.done, { bs1 with ready := true }, p, evs, finAdded, false⟩

/-- `AWSBuildReconciler.reconcileNormal`: fetch the SSH key (an error if
none is configured), and if the build is not ready run the five
reconcilers; on success add the finalizer and patch the object (an
intermediate persistence of the BuildState), then fall into the tail. -/
def reconcileNormal (req : BuildRequest) (bs : BuildState) (p : Provider) : RecOut :=
  if !req.hasSSHKey then
    ⟨.failedWith (.generic "no ssh key provided"), bs, p, [], false, false⟩
  else if !bs.ready then
    match runNormalLoop req normalOrder bs p [] with
    | (.err e, bs1, p1, evs1) => ⟨.failedWith e, bs1, p1, evs1, false, false⟩
    | (.panic m, bs1, p1, evs1) => ⟨.panicked m, bs1, p1, evs1, false, false⟩
    | (.ok, bs1, p1, evs1) =>
      reconcileNormalTail req bs1 p1 (evs1 ++ [Event.persist bs1]) true
  else
    reconcileNormalTail req bs p [] false

/-- `AWSBuildReconciler.Reconcile` from the point where the build scope
exists: branch into the delete pipeline when the object is being deleted
and still carries the finalizer, else the normal pipeline; the deferred
`buildScope.Close()` persists the (possibly partially mutated) BuildState
exactly when the invocation exits — on success, on error, and while
unwinding a panic. -/
def reconcileAWSBuild (req : BuildRequest) (bs : BuildState) (p : Provider)
    (deleting hasFinalizer : Bool) : RecOut :=
  let r :=
    if deleting && hasFinalizer then reconcileDelete req bs p
    else reconcileNormal req bs p
  { r with events := r.events ++ [Event.persist r.bs] }

/-- Number of persistence events in an event trace. -/
def countPersist (evs : List Event) : Nat := (evs.filter isPersistEvent).length

/-! ### Concrete fixtures used by witnesses and counterexamples -/

/-- The ownership marker tag list. -/
def managedTags : List Tag := [⟨"forge-managed", "true"⟩]

/-- A BuildState with every identifier recorded and lifecycle RUNNING. -/
def bsFix : BuildState :=
  ⟨some "vpc-1", "net", some "s-1", some "sg-1", some "i-1", some "RUNNING",
   none, false, false, false⟩

/-- A provider holding the matching owned resources. -/
def provFix : Provider :=
  { vpcs := [⟨"vpc-1", vpcSpecCIDR, ⟨"Name", "net"⟩ :: managedTags⟩],
    subnets := [⟨"s-1", "vpc-1", ⟨24, 167772160⟩, managedTags⟩],
    securityGroups := [⟨"sg-1", "vpc-1", "net", managedTags, true⟩],
    instances := [⟨"i-1", "running", managedTags, [⟨some ⟨some "198.51.100.7"⟩⟩]⟩],
    internetGateways := [⟨"igw-1", some "vpc-1"⟩],
    routeTables := [⟨"rtb-1", "vpc-1", true, false⟩],
    images := [], nextId := 10, now := 100 }

/-- Same resources without the ownership marker anywhere. -/
def provUnmanaged : Provider :=
  { provFix with
    vpcs := [⟨"vpc-1", vpcSpecCIDR, [⟨"Name", "net"⟩]⟩],
    subnets := [⟨"s-1", "vpc-1", ⟨24, 167772160⟩, [⟨"Name", "net-subnet"⟩]⟩],
    instances := [⟨"i-1", "running", [], [⟨some ⟨some "198.51.100.7"⟩⟩]⟩] }

/-- The owned instance with a first network interface that has no
public-IP association (nil `Association`). -/
def provNilAssoc : Provider :=
  { provFix with instances := [⟨"i-1", "running", managedTags, [⟨none⟩]⟩] }

/-- A request for build "bld" (provisioner not yet ready). -/
def reqFix : BuildRequest := ⟨"bld", "t2.micro", some "ami-base", some true, false, 50, true⟩

/-- The same request once the provisioner has signalled readiness. -/
def reqReady : BuildRequest := { reqFix with provisionersReady := true }

/-- An image of the build name created before the build request. -/
def imageOlder : Image := ⟨"ami-old", "bld", "available", 10⟩

/-- An image of the build name created after the build request. -/
def imageNewer : Image := ⟨"ami-new", "bld", "pending", 60⟩

/-! ### Theorems: loop characterisation of the CIDR allocator -/

theorem findLoop_succ (vpc : IPNet) (used : List IPNet) (m ip fuel : Nat) :
    findLoop vpc used m ip (fuel + 1) =
      if containsIP vpc ip then
        if isCIDRInUse (parseCIDRBlock m ip) used then
          findLoop vpc used m (incrementIP ip) fuel
        else some ip
      else none := rfl

theorem testedLoop_succ (vpc : IPNet) (used : List IPNet) (m ip fuel : Nat) :
    testedLoop vpc used m ip (fuel + 1) =
      if containsIP vpc ip then
        ip :: (if isCIDRInUse (parseCIDRBlock m ip) used then
                 testedLoop vpc used m (incrementIP ip) fuel
               else [])
      else [] := rfl


/-! ### Loop characterisation of the CIDR allocator -/

theorem netSize_pos (n : IPNet) : 0 < netSize n := Nat.pos_pow_of_pos _ (by decide)

theorem aligned_mod (n : IPNet) (h : n.base = maskIP n.ones n.base) :
    n.base % netSize n = 0 := by
  have hle := Nat.mod_le n.base (2 ^ (32 - n.ones))
  unfold maskIP at h
  unfold netSize
  omega

theorem size_dvd_space (n : IPNet) (h : n.ones ≤ 32) : netSize n ∣ ipSpace :=
  pow_dvd_pow 2 (by omega)

theorem base_add_size_le (n : IPNet) (hwf : wfNet n) : n.base + netSize n ≤ ipSpace := by
  obtain ⟨h32, hlt, hal⟩ := hwf
  obtain ⟨a, ha⟩ := Nat.dvd_of_mod_eq_zero (aligned_mod n hal)
  obtain ⟨b, hb⟩ := size_dvd_space n h32
  have hpos := netSize_pos n
  have hab : a < b := by
    rcases Nat.lt_or_ge a b with h | h
    · exact h
    · exfalso
      have : netSize n * b ≤ netSize n * a := Nat.mul_le_mul_left _ h
      omega
  have : netSize n * (a + 1) ≤ netSize n * b := Nat.mul_le_mul_left _ hab
  calc n.base + netSize n = netSize n * (a + 1) := by rw [ha]; ring
    _ ≤ netSize n * b := this
    _ = ipSpace := hb.symm

theorem containsIP_base_add (n : IPNet) (hal : n.base = maskIP n.ones n.base)
    (k : Nat) (hk : k < netSize n) : containsIP n (n.base + k) = true := by
  obtain ⟨a, ha⟩ := Nat.dvd_of_mod_eq_zero (aligned_mod n hal)
  have hmod : (n.base + k) % netSize n = k := by
    rw [ha, Nat.mul_add_mod]
    exact Nat.mod_eq_of_lt hk
  simp only [containsIP, maskIP, beq_iff_eq]
  unfold netSize at hmod
  omega

theorem maskIP_eq (n : IPNet) (ip : Nat) : maskIP n.ones ip = ip - ip % netSize n := rfl

theorem containsIP_past_end (n : IPNet) (h1 : 1 ≤ n.ones) (hwf : wfNet n) :
    containsIP n ((n.base + netSize n) % ipSpace) = false := by
  obtain ⟨h32, hlt, hal⟩ := hwf
  have hle := base_add_size_le n ⟨h32, hlt, hal⟩
  have hmod0 := aligned_mod n hal
  have hpos := netSize_pos n
  have hsz : netSize n < ipSpace := by
    unfold netSize ipSpace
    exact Nat.pow_lt_pow_right (by decide) (by omega)
  simp only [containsIP, beq_eq_false_iff_ne, ne_eq, maskIP_eq]
  rcases Nat.lt_or_ge (n.base + netSize n) ipSpace with hend | hend
  · rw [Nat.mod_eq_of_lt hend, Nat.add_mod_right, hmod0]
    omega
  · have heq : n.base + netSize n = ipSpace := by omega
    rw [heq, Nat.mod_self]
    simp only [Nat.zero_mod, Nat.sub_zero]
    omega

theorem findLoop_eq_find? (vpc : IPNet) (used : List IPNet) (m : Nat)
    (h1 : 1 ≤ vpc.ones) (hwf : wfNet vpc) :
    ∀ n k, k + n = netSize vpc →
      findLoop vpc used m ((vpc.base + k) % ipSpace) (n + 1) =
        ((List.range n).map (fun i => vpc.base + k + i)).find? (candFree used m) := by
  have hle := base_add_size_le vpc hwf
  intro n
  induction n with
  | zero =>
    intro k hk
    have hcard : k = netSize vpc := by omega
    subst hcard
    rw [findLoop_succ, if_neg]
    · simp
    · rw [containsIP_past_end vpc h1 hwf]
      simp
  | succ n ih =>
    intro k hk
    have hklt : k < netSize vpc := by omega
    have hlt : vpc.base + k < ipSpace := by omega
    rw [Nat.mod_eq_of_lt hlt]
    rw [findLoop_succ, if_pos (containsIP_base_add vpc hwf.2.2 k hklt)]
    rw [List.range_succ_eq_map, List.map_cons, List.map_map]
    rcases hcase : isCIDRInUse (parseCIDRBlock m (vpc.base + k)) used with hfalse | htrue
    · -- candidate is free: loop returns it, find? keeps the head
      rw [if_neg (by simp)]
      rw [List.find?_cons_of_pos _ (by simp [candFree, hcase])]
      simp
    · -- candidate is in use: loop advances by one address
      rw [if_pos rfl]
      rw [List.find?_cons_of_neg _ (by simp [candFree, hcase])]
      have harg : incrementIP (vpc.base + k) = (vpc.base + (k + 1)) % ipSpace := rfl
      rw [harg, ih (k + 1) (by omega)]
      congr 1
      congr 1
      funext i
      simp only [Function.comp_apply]
      omega

theorem findAvailableCIDR_eq_find? (vpc : IPNet) (used : List IPNet) (m : Nat)
    (h1 : 1 ≤ vpc.ones) (hwf : wfNet vpc) :
    findAvailableCIDR vpc used m = (candidateIPs vpc).find? (candFree used m) := by
  have h := findLoop_eq_find? vpc used m h1 hwf (netSize vpc) 0 (by omega)
  have hb : (vpc.base + 0) % ipSpace = vpc.base := by
    rw [Nat.add_zero]
    exact Nat.mod_eq_of_lt hwf.2.1
  rw [hb] at h
  unfold findAvailableCIDR candidateIPs
  rw [← hwf.2.2, h]
  congr 1

theorem testedLoop_initial_segment (vpc : IPNet) (used : List IPNet) (m : Nat)
    (h1 : 1 ≤ vpc.ones) (hwf : wfNet vpc) :
    ∀ n k, k + n = netSize vpc →
      ∃ t, t ≤ n ∧ testedLoop vpc used m ((vpc.base + k) % ipSpace) (n + 1) =
        (List.range t).map (fun i => vpc.base + k + i) := by
  have hle := base_add_size_le vpc hwf
  intro n
  induction n with
  | zero =>
    intro k hk
    refine ⟨0, Nat.le_refl 0, ?_⟩
    have hcard : k = netSize vpc := by omega
    subst hcard
    rw [testedLoop_succ, if_neg]
    · rfl
    · rw [containsIP_past_end vpc h1 hwf]
      exact Bool.false_ne_true
  | succ n ih =>
    intro k hk
    have hklt : k < netSize vpc := by omega
    have hlt : vpc.base + k < ipSpace := by omega
    rw [Nat.mod_eq_of_lt hlt]
    rw [testedLoop_succ, if_pos (containsIP_base_add vpc hwf.2.2 k hklt)]
    rcases hcase : isCIDRInUse (parseCIDRBlock m (vpc.base + k)) used with _ | _
    · refine ⟨1, by omega, ?_⟩
      rw [if_neg (by simp)]
      rfl
    · rw [if_pos rfl]
      have harg : incrementIP (vpc.base + k) = (vpc.base + (k + 1)) % ipSpace := rfl
      rw [harg]
      obtain ⟨t, ht, heq⟩ := ih (k + 1) (by omega)
      refine ⟨t + 1, by omega, ?_⟩
      rw [heq, List.range_succ_eq_map, List.map_cons, List.map_map]
      congr 1
      congr 1
      funext i
      simp only [Function.comp_apply]
      omega

/-- C5 (amended): the CIDR allocator iterates candidates at a stride of one
address starting from the parent block's base while the candidate stays
inside the parent; the candidate is masked to the target prefix only by the
overlap test.  Hence the sequence of candidates it tests is an initial
segment of the parent block's addresses in ascending order (not the
256-address-stride sequence of aligned /24 block bases). -/
theorem testedCandidates_stride_one (vpc : IPNet) (used : List IPNet)
    (h1 : 1 ≤ vpc.ones) (hwf : wfNet vpc) :
    ∃ t, t ≤ netSize vpc ∧
      testedCandidates vpc used 24 = (List.range t).map (fun i => vpc.base + i) := by
  obtain ⟨t, ht, heq⟩ := testedLoop_initial_segment vpc used 24 h1 hwf (netSize vpc) 0 (by omega)
  have hb : (vpc.base + 0) % ipSpace = vpc.base := by
    rw [Nat.add_zero]
    exact Nat.mod_eq_of_lt hwf.2.1
  rw [hb] at heq
  refine ⟨t, ht, ?_⟩
  unfold testedCandidates
  rw [← hwf.2.2, heq]
  rfl

/-- Witness for the amended C5 theorem at a concrete parent block. -/
theorem testedCandidates_stride_one_witness :
    ∃ t, t ≤ netSize ⟨24, 0⟩ ∧
      testedCandidates ⟨24, 0⟩ [⟨25, 0⟩] 24 = (List.range t).map (fun i => (0 : Nat) + i) :=
  testedCandidates_stride_one ⟨24, 0⟩ [⟨25, 0⟩] (by decide) (by unfold wfNet; decide)

/-- C5 counterexample: with parent `0.0.0.0/24` and used blocks
`[0.0.0.0/25]`, the tested candidate sequence is not the ascending list of
/24-aligned block bases of the parent (which would be the one-element list
containing just the base): the loop tests at stride one, so it tests the
base address and then base+1. -/
theorem candidate_stride_counterexample :
    testedCandidates ⟨24, 0⟩ [⟨25, 0⟩] 24 ≠ [0] ∧
    (testedCandidates ⟨24, 0⟩ [⟨25, 0⟩] 24).take 2 = [0, 1] := by
  constructor
  · decide
  · decide

theorem dvd256_netSize (P : IPNet) (h24 : P.ones ≤ 24) : (256 : Nat) ∣ netSize P := by
  unfold netSize
  have h : (2 : Nat) ^ 8 ∣ 2 ^ (32 - P.ones) := pow_dvd_pow 2 (by omega)
  simpa using h

/-- C1: for every parent block `P` and used set `U` that parse
successfully (well-formed, with a nonempty prefix, as every AWS VPC CIDR
has), (a) if some aligned /24 block inside `P` overlaps no used block then
`findAvailableCIDR` returns a candidate whose /24 block is fully contained
in `P` and disjoint from every used block, (b) if `U` covers every address
of `P` the allocator returns the exhaustion error (`none`), and (c) the
overlap test used is exactly `a.first ≤ b.last ∧ a.last ≥ b.first`. -/
theorem findAvailableCIDR_correct (P : IPNet) (U : List IPNet)
    (h1 : 1 ≤ P.ones) (hwf : wfNet P) :
    ((∃ c : IPNet, c.ones = 24 ∧ c.base = maskIP 24 c.base ∧ subBlock c P ∧
        ∀ u ∈ U, overlapB c u = false) →
      ∃ ip, findAvailableCIDR P U 24 = some ip ∧
        subBlock (parseCIDRBlock 24 ip) P ∧
        ∀ u ∈ U, overlapB (parseCIDRBlock 24 ip) u = false) ∧
    (coversNet U P → findAvailableCIDR P U 24 = none) ∧
    (∀ a b : IPNet, overlapB a b = true ↔ cidrFirst a ≤ cidrLast b ∧ cidrLast a ≥ cidrFirst b) := by
  have hfind := findAvailableCIDR_eq_find? P U 24 h1 hwf
  have hsizepos := netSize_pos P
  have hmod0 := aligned_mod P hwf.2.2
  refine ⟨?_, ?_, ?_⟩
  · rintro ⟨c, hc24, hcal, hcsub, hcfree⟩
    have hcsize : netSize c = 256 := by
      unfold netSize
      rw [hc24]
      decide
    have hcsub' := hcsub
    unfold subBlock cidrFirst cidrLast at hcsub'
    rw [hcsize] at hcsub'
    -- the parent holds a full /24, hence P.ones ≤ 24
    have h256 : (256 : Nat) ≤ netSize P := by omega
    have hones24 : P.ones ≤ 24 := by
      by_contra hgt
      push_neg at hgt
      have hsm : netSize P ≤ 2 ^ 7 := by
        unfold netSize
        exact Nat.pow_le_pow_right (by decide) (by omega)
      simp at hsm
      omega
    obtain ⟨sq, hsq⟩ := dvd256_netSize P hones24
    obtain ⟨bq, hbq⟩ := dvd_trans (dvd256_netSize P hones24)
      (Nat.dvd_of_mod_eq_zero hmod0)
    -- the free block's base is one of the loop's candidates
    have hcmem : c.base ∈ candidateIPs P := by
      unfold candidateIPs
      rw [List.mem_map]
      refine ⟨c.base - P.base, ?_, by omega⟩
      rw [List.mem_range]
      omega
    have hcparse : parseCIDRBlock 24 c.base = c := by
      cases c with
      | mk o b =>
        simp only at hc24 hcal
        subst hc24
        unfold parseCIDRBlock
        rw [← hcal]
    have hcpred : candFree U 24 c.base = true := by
      unfold candFree
      rw [hcparse]
      have hfz : isCIDRInUse c U = false := by
        unfold isCIDRInUse
        rw [List.any_eq_false]
        intro u hu
        rw [hcfree u hu]
        exact Bool.false_ne_true
      rw [hfz]
      rfl
    have hsome : ((candidateIPs P).find? (candFree U 24)).isSome :=
      List.find?_isSome.mpr ⟨c.base, hcmem, hcpred⟩
    obtain ⟨ip, hip⟩ := Option.isSome_iff_exists.mp hsome
    have hipred := List.find?_some hip
    have hipmem := List.mem_of_find?_eq_some hip
    unfold candidateIPs at hipmem
    rw [List.mem_map] at hipmem
    obtain ⟨j, hjmem, hj⟩ := hipmem
    rw [List.mem_range] at hjmem
    refine ⟨ip, by rw [hfind]; exact hip, ?_, ?_⟩
    · -- the returned /24 block is fully contained in P
      have hbase : (parseCIDRBlock 24 ip).base = ip - ip % 256 := rfl
      have hns : netSize (parseCIDRBlock 24 ip) = 256 := rfl
      unfold subBlock cidrFirst cidrLast
      rw [hbase, hns]
      omega
    · -- the returned /24 block is disjoint from every used block
      have hinuse : isCIDRInUse (parseCIDRBlock 24 ip) U = false := by
        unfold candFree at hipred
        rwa [Bool.not_eq_true'] at hipred
      unfold isCIDRInUse at hinuse
      rw [List.any_eq_false] at hinuse
      intro u hu
      have := hinuse u hu
      simpa using this
  · intro hcov
    rw [hfind, List.find?_eq_none]
    intro x hx
    unfold candidateIPs at hx
    rw [List.mem_map] at hx
    obtain ⟨j, hjmem, hj⟩ := hx
    rw [List.mem_range] at hjmem
    have hxin : inBlock P x := by
      unfold inBlock cidrFirst cidrLast
      omega
    obtain ⟨u, hu, hux⟩ := hcov x hxin
    unfold inBlock cidrFirst cidrLast at hux
    have htrue : isCIDRInUse (parseCIDRBlock 24 x) U = true := by
      unfold isCIDRInUse
      rw [List.any_eq_true]
      refine ⟨u, hu, ?_⟩
      have hbase : (parseCIDRBlock 24 x).base = x - x % 256 := rfl
      have hns : netSize (parseCIDRBlock 24 x) = 256 := rfl
      unfold overlapB cidrFirst cidrLast
      rw [hbase, hns]
      simp only [Bool.and_eq_true, decide_eq_true_eq]
      omega
    unfold candFree
    rw [htrue]
    decide
  · intro a b
    unfold overlapB
    simp only [Bool.and_eq_true, decide_eq_true_eq, ge_iff_le]

/-- Witness for C1: with parent `0.0.0.0/24` and no used blocks the
allocator returns a contained, disjoint /24; with the parent itself used,
it returns the exhaustion error. -/
theorem findAvailableCIDR_correct_witness :
    (∃ ip, findAvailableCIDR ⟨24, 0⟩ [] 24 = some ip ∧
      subBlock (parseCIDRBlock 24 ip) ⟨24, 0⟩ ∧
      ∀ u ∈ ([] : List IPNet), overlapB (parseCIDRBlock 24 ip) u = false) ∧
    findAvailableCIDR ⟨24, 0⟩ [⟨24, 0⟩] 24 = none := by
  constructor
  · exact (findAvailableCIDR_correct ⟨24, 0⟩ [] (by decide) (by unfold wfNet; decide)).1
      ⟨⟨24, 0⟩, rfl, by decide, by unfold subBlock cidrFirst cidrLast; decide,
        by intro u hu; cases hu⟩
  · exact (findAvailableCIDR_correct ⟨24, 0⟩ [⟨24, 0⟩] (by decide) (by unfold wfNet; decide)).2.1
      (fun a ha => ⟨⟨24, 0⟩, List.mem_singleton.mpr rfl, ha⟩)



/-! ### Theorems about the reconcilers -/

/-- C3: for every tracked (set) instance lifecycle value other than
Terminated, SecurityGroup `Delete` returns the distinguished
`ErrInstanceNotTerminated` sentinel — recognised by error-value identity
(`errors.Is`), as `isInstanceNotTerminated` tests — and issues no
provider call, in particular no delete-security-group call. -/
theorem sg_delete_not_terminated_sentinel (req : BuildRequest) (bs : BuildState)
    (p : Provider) (v : String) (hst : bs.instanceStatus = some v)
    (hv : v ≠ "TERMINATED") :
    (securityGroupDelete req bs p).res = .err .instanceNotTerminated ∧
    (∀ e, (securityGroupDelete req bs p).res = .err e → isInstanceNotTerminated e = true) ∧
    (securityGroupDelete req bs p).calls = [] := by
  have hb : (v != "TERMINATED") = true := bne_iff_ne.mpr hv
  simp only [securityGroupDelete, hst, hb, if_true]
  refine ⟨trivial, ?_, trivial⟩
  intro e he
  cases he
  rfl

/-- Witness for C3 at lifecycle RUNNING. -/
theorem sg_delete_not_terminated_sentinel_witness :
    (securityGroupDelete reqFix bsFix provFix).res = .err .instanceNotTerminated ∧
    (∀ e, (securityGroupDelete reqFix bsFix provFix).res = .err e →
      isInstanceNotTerminated e = true) ∧
    (securityGroupDelete reqFix bsFix provFix).calls = [] :=
  sg_delete_not_terminated_sentinel reqFix bsFix provFix "RUNNING" rfl (by decide)

/-- C8 counterexample: with no security-group id recorded but the
tracked instance status RUNNING, SecurityGroup `Delete` is not a
successful no-op — the lifecycle gate runs before the security-group-id
check and returns the `ErrInstanceNotTerminated` sentinel. -/
theorem sg_delete_no_sg_counterexample :
    (securityGroupDelete reqFix { bsFix with securityGroupID := none } provFix).res =
      .err .instanceNotTerminated ∧
    (securityGroupDelete reqFix { bsFix with securityGroupID := none } provFix).res ≠ .ok := by
  constructor
  · rfl
  · decide

/-- C8 (amended): when no security-group id is recorded, SecurityGroup
`Delete` issues no provider call; but because the lifecycle gate
dereferences the tracked status pointer before the id check, the result
is success only when the status is Terminated, the
`ErrInstanceNotTerminated` sentinel for any other set status, and a nil
pointer dereference (panic) when the status was never set. -/
theorem sg_delete_no_sg_behavior (req : BuildRequest) (bs : BuildState) (p : Provider)
    (hsg : bs.securityGroupID = none) :
    (securityGroupDelete req bs p).calls = [] ∧
    (bs.instanceStatus = some "TERMINATED" → (securityGroupDelete req bs p).res = .ok) ∧
    (∀ v, bs.instanceStatus = some v → v ≠ "TERMINATED" →
      (securityGroupDelete req bs p).res = .err .instanceNotTerminated) ∧
    (bs.instanceStatus = none →
      (securityGroupDelete req bs p).res =
        .panic "invalid memory address or nil pointer dereference") := by
  refine ⟨?_, ?_, ?_, ?_⟩
  · cases hst : bs.instanceStatus with
    | none => simp only [securityGroupDelete, hst]
    | some v =>
      cases hb : (v != "TERMINATED") with
      | true => simp only [securityGroupDelete, hst, hb, if_true]
      | false => simp only [securityGroupDelete, hst, hb, Bool.false_eq_true, if_false, hsg]
  · intro hst
    simp only [securityGroupDelete, hst, hsg]
    rfl
  · intro v hst hv
    have hb : (v != "TERMINATED") = true := bne_iff_ne.mpr hv
    simp only [securityGroupDelete, hst, hb, if_true]
  · intro hst
    simp only [securityGroupDelete, hst]

/-- Witness for the amended C8 at the three concrete statuses. -/
theorem sg_delete_no_sg_behavior_witness :
    (securityGroupDelete reqFix { bsFix with securityGroupID := none } provFix).calls = [] ∧
    (securityGroupDelete reqFix
      { bsFix with securityGroupID := none, instanceStatus := some "TERMINATED" } provFix).res = .ok ∧
    (securityGroupDelete reqFix { bsFix with securityGroupID := none } provFix).res =
      .err .instanceNotTerminated ∧
    (securityGroupDelete reqFix
      { bsFix with securityGroupID := none, instanceStatus := none } provFix).res =
      .panic "invalid memory address or nil pointer dereference" := by
  refine ⟨?_, ?_, ?_, ?_⟩
  · exact (sg_delete_no_sg_behavior reqFix { bsFix with securityGroupID := none } provFix rfl).1
  · exact (sg_delete_no_sg_behavior reqFix
      { bsFix with securityGroupID := none, instanceStatus := some "TERMINATED" } provFix rfl).2.1 rfl
  · exact (sg_delete_no_sg_behavior reqFix
      { bsFix with securityGroupID := none } provFix rfl).2.2.1 "RUNNING" rfl (by decide)
  · exact (sg_delete_no_sg_behavior reqFix
      { bsFix with securityGroupID := none, instanceStatus := none } provFix rfl).2.2.2 rfl

/-- C10: whenever the reconciled instance's first network interface
exists but carries no public-IP association (nil `Association`), the
Instance `Reconcile` dereferences the nil association while deriving the
public address and panics, instead of returning an error or an empty
address. -/
theorem instance_reconcile_nil_association_panics (req : BuildRequest) (bs : BuildState)
    (p : Provider) (id : String) (inst : Instance) (rest : List NetworkInterface)
    (hid : bs.instanceID = some id) (hfind : findInstance p id = some inst)
    (hifaces : inst.networkInterfaces = ⟨none⟩ :: rest) :
    (instancesReconcile req bs p).res =
      .panic "invalid memory address or nil pointer dereference" := by
  simp only [instancesReconcile, createOrGetInstance, hid, hfind, hifaces, derivePublicIP]

/-- Witness for C10 at a concrete provider. -/
theorem instance_reconcile_nil_association_panics_witness :
    (instancesReconcile reqFix bsFix provNilAssoc).res =
      .panic "invalid memory address or nil pointer dereference" :=
  instance_reconcile_nil_association_panics reqFix bsFix provNilAssoc "i-1"
    ⟨"i-1", "running", managedTags, [⟨none⟩]⟩ [] rfl rfl rfl

/-- C2: for every resource id (VPC, subnet, instance) recorded in
BuildState whose live resource lacks the `forge-managed=true` marker, the
corresponding stage's `Delete` issues no provider call and returns
success; and adoption of a user-supplied subnet id leaves the provider
(hence the subnet's tags) untouched, so an unmarked adopted subnet is
never deleted by a subsequent `Delete` pass. -/
theorem delete_ownership_gating (req : BuildRequest) (bs : BuildState) (p : Provider) :
    (∀ id sn, bs.subnetID = some id → findSubnet p id = some sn →
      hasManagedTag sn.tags = false →
      (subnetDelete req bs p).res = .ok ∧ (subnetDelete req bs p).calls = []) ∧
    (∀ id inst, bs.instanceID = some id → findInstance p id = some inst →
      hasManagedTag inst.tags = false →
      (instancesDelete req bs p).res = .ok ∧ (instancesDelete req bs p).calls = []) ∧
    (∀ id v, bs.vpcID = some id → findVpc p id = some v →
      hasManagedTag v.tags = false →
      (networksDelete req bs p).res = .ok ∧ (networksDelete req bs p).calls = []) ∧
    (∀ id, bs.subnetID = some id →
      (subnetReconcile req bs p).prov = p ∧
      (∀ sn, findSubnet p id = some sn → hasManagedTag sn.tags = false →
        (subnetDelete req (subnetReconcile req bs p).bs (subnetReconcile req bs p).prov).res = .ok ∧
        (subnetDelete req (subnetReconcile req bs p).bs (subnetReconcile req bs p).prov).calls = [])) := by
  refine ⟨?_, ?_, ?_, ?_⟩
  · intro id sn hid hfind hmg
    have hman : isManagedSubnet p id = false := by
      simp only [isManagedSubnet, hfind, hmg]
    simp only [subnetDelete, hid, hman, Bool.false_eq_true, if_false]
    exact ⟨trivial, trivial⟩
  · intro id inst hid hfind hmg
    have hman : isManagedInstance p id = false := by
      simp only [isManagedInstance, hfind, hmg]
    simp only [instancesDelete, hid, hman, Bool.false_eq_true, if_false]
    exact ⟨trivial, trivial⟩
  · intro id v hid hfind hmg
    have hman : isManagedVPC p id = .ok false := by
      simp only [isManagedVPC, hfind, hmg]
    simp only [networksDelete, hid, hman]
    exact ⟨trivial, trivial⟩
  · intro id hid
    constructor
    · simp only [subnetReconcile, hid]
      cases hlook : findSubnetByID p id <;> simp
    · intro sn hfind hmg
      have hlook : findSubnetByID p id = .ok sn := by
        simp only [findSubnetByID, hfind]
      have hsame : sn.subnetId = id := by
        have := List.find?_some hfind
        exact eq_of_beq this
      simp only [subnetReconcile, hid, hlook]
      have hman : isManagedSubnet p sn.subnetId = false := by
        rw [hsame]
        simp only [isManagedSubnet, hfind, hmg]
      simp only [subnetDelete, hman, Bool.false_eq_true, if_false]
      exact ⟨trivial, trivial⟩

/-- Witness for C2 at the unmarked fixture resources. -/
theorem delete_ownership_gating_witness :
    ((subnetDelete reqFix bsFix provUnmanaged).res = .ok ∧
      (subnetDelete reqFix bsFix provUnmanaged).calls = []) ∧
    ((instancesDelete reqFix bsFix provUnmanaged).res = .ok ∧
      (instancesDelete reqFix bsFix provUnmanaged).calls = []) ∧
    ((networksDelete reqFix bsFix provUnmanaged).res = .ok ∧
      (networksDelete reqFix bsFix provUnmanaged).calls = []) ∧
    (subnetReconcile reqFix bsFix provUnmanaged).prov = provUnmanaged ∧
    ((subnetDelete reqFix (subnetReconcile reqFix bsFix provUnmanaged).bs
        (subnetReconcile reqFix bsFix provUnmanaged).prov).res = .ok ∧
      (subnetDelete reqFix (subnetReconcile reqFix bsFix provUnmanaged).bs
        (subnetReconcile reqFix bsFix provUnmanaged).prov).calls = []) := by
  have h := delete_ownership_gating reqFix bsFix provUnmanaged
  refine ⟨?_, ?_, ?_, ?_, ?_⟩
  · exact h.1 "s-1" ⟨"s-1", "vpc-1", ⟨24, 167772160⟩, [⟨"Name", "net-subnet"⟩]⟩ rfl rfl (by decide)
  · exact h.2.1 "i-1" ⟨"i-1", "running", [], [⟨some ⟨some "198.51.100.7"⟩⟩]⟩ rfl rfl (by decide)
  · exact h.2.2.1 "vpc-1" ⟨"vpc-1", vpcSpecCIDR, [⟨"Name", "net"⟩]⟩ rfl rfl (by decide)
  · exact (h.2.2.2 "s-1" rfl).1
  · exact (h.2.2.2 "s-1" rfl).2 ⟨"s-1", "vpc-1", ⟨24, 167772160⟩, [⟨"Name", "net-subnet"⟩]⟩ rfl (by decide)

/-- C6 counterexample: two images of the build's name, the newer one
(created after the build) listed first by the provider.  The staleness
check returns early on the first at-or-after image, so the stale older
image is NOT deregistered — the pass issues no calls at all and the older
image remains registered, contradicting "deregisters exactly the older
image ... regardless of the order in which the provider lists the two
images". -/
theorem image_staleness_order_counterexample :
    (imagesReconcileDirect reqReady bsFix
      { provFix with images := [imageNewer, imageOlder] }).calls = [] ∧
    imageOlder ∈ (imagesReconcileDirect reqReady bsFix
      { provFix with images := [imageNewer, imageOlder] }).prov.images := by
  constructor
  · rfl
  · decide

/-- C6 (amended): the staleness sweep is order-dependent.  When the
provider lists the stale older image before the at-or-after newer one,
`Reconcile` deregisters exactly the older image, leaves the newer
untouched (the sweep returns early on it), and — the newer image then
being the first listed match, in state pending or available — issues no
create-image call.  When the newer image is listed first, the sweep
returns early immediately: nothing is deregistered, the stale older image
stays registered, and again no create-image call is issued. -/
theorem ensureAMI_order_dependent (req : BuildRequest) (bs : BuildState) (p : Provider)
    (older newer : Image) (iid : String)
    (hready : req.provisionersReady = true) (hnready : bs.ready = false)
    (hiid : bs.instanceID = some iid)
    (hno : older.name = req.name) (hnn : newer.name = req.name)
    (hold : older.creationDate < req.creationTime)
    (hnew : req.creationTime ≤ newer.creationDate)
    (hne : newer.imageId ≠ older.imageId)
    (hstate : newer.state = "pending" ∨ newer.state = "available") :
    ((imagesReconcileDirect req bs { p with images := [older, newer] }).calls =
        [.deregisterImage older.imageId] ∧
      (imagesReconcileDirect req bs { p with images := [older, newer] }).prov.images =
        [newer]) ∧
    ((imagesReconcileDirect req bs { p with images := [newer, older] }).calls = [] ∧
      (imagesReconcileDirect req bs { p with images := [newer, older] }).prov.images =
        [newer, older]) := by
  have hnotlt : ¬ newer.creationDate < req.creationTime := Nat.not_lt.mpr hnew
  rcases hstate with hs | hs <;>
    simp [imagesReconcileDirect, hready, hnready, hiid, ensureAMIDoesNotExistDirect,
      ensureAMIScan, describeImagesByName, checkAMIStatusOp, createAMIOp,
      hno, hnn, hold, hnotlt, hne, hs]

/-- Witness for the amended C6 with the older image listed first and the
newer listed first. -/
theorem ensureAMI_order_dependent_witness :
    ((imagesReconcileDirect reqReady bsFix
        { provFix with images := [imageOlder, imageNewer] }).calls =
        [.deregisterImage "ami-old"] ∧
      (imagesReconcileDirect reqReady bsFix
        { provFix with images := [imageOlder, imageNewer] }).prov.images = [imageNewer]) ∧
    ((imagesReconcileDirect reqReady bsFix
        { provFix with images := [imageNewer, imageOlder] }).calls = [] ∧
      (imagesReconcileDirect reqReady bsFix
        { provFix with images := [imageNewer, imageOlder] }).prov.images =
        [imageNewer, imageOlder]) :=
  ensureAMI_order_dependent reqReady bsFix provFix imageOlder imageNewer "i-1"
    rfl rfl rfl rfl rfl (by decide) (by decide) (by decide) (Or.inl rfl)

/-- C4: on a full `Delete` pipeline pass over a BuildState whose owned
instance is RUNNING, Instance `Delete` issues exactly one terminate call
(the only provider call of the pass) and mirrors the lifecycle to
`Terminating`; SecurityGroup `Delete` then returns the
`ErrInstanceNotTerminated` sentinel, which the orchestrator maps to a
5-second requeue without removing the finalizer.  Moreover, on any pass
the finalizer is removed only when every stage's `Delete` returned
success. -/
theorem delete_pipeline_running_scenario (req : BuildRequest) (bs : BuildState)
    (p : Provider) (iid : String) (inst : Instance)
    (hid : bs.instanceID = some iid)
    (hfind : findInstance p iid = some inst)
    (hmg : hasManagedTag inst.tags = true)
    (hstate : inst.stateName = "running")
    (hst : bs.instanceStatus = some "RUNNING") :
    (reconcileDelete req bs p).result = .requeueAfter 5 ∧
    (reconcileDelete req bs p).events = [Event.call (.terminateInstance iid)] ∧
    (reconcileDelete req bs p).bs.instanceStatus = some "Terminating" ∧
    (reconcileDelete req bs p).finalizerRemoved = false ∧
    (∀ rq b q, (reconcileDelete rq b q).finalizerRemoved = true →
      (instancesDelete rq b q).res = .ok ∧
      (securityGroupDelete rq (instancesDelete rq b q).bs (instancesDelete rq b q).prov).res = .ok ∧
      (subnetDelete rq (securityGroupDelete rq (instancesDelete rq b q).bs
          (instancesDelete rq b q).prov).bs
        (securityGroupDelete rq (instancesDelete rq b q).bs (instancesDelete rq b q).prov).prov).res = .ok ∧
      (networksDelete rq (subnetDelete rq (securityGroupDelete rq (instancesDelete rq b q).bs
            (instancesDelete rq b q).prov).bs
          (securityGroupDelete rq (instancesDelete rq b q).bs (instancesDelete rq b q).prov).prov).bs
        (subnetDelete rq (securityGroupDelete rq (instancesDelete rq b q).bs
            (instancesDelete rq b q).prov).bs
          (securityGroupDelete rq (instancesDelete rq b q).bs
            (instancesDelete rq b q).prov).prov).prov).res = .ok) := by
  have hman : isManagedInstance p iid = true := by
    simp only [isManagedInstance, hfind, hmg]
  have hd1 : instancesDelete req bs p =
      ⟨.ok, { bs with instanceStatus := some "Terminating" },
        (terminateInstanceOp p iid).1, [.terminateInstance iid]⟩ := by
    simp only [instancesDelete, hid, hman, if_true, hfind, hstate]
    simp [terminateInstanceOp]
  refine ⟨?_, ?_, ?_, ?_, ?_⟩
  · simp only [reconcileDelete, deleteOrder, runDeleteLoop, runDeleteStage, hd1]
    rfl
  · simp only [reconcileDelete, deleteOrder, runDeleteLoop, runDeleteStage, hd1]
    rfl
  · simp only [reconcileDelete, deleteOrder, runDeleteLoop, runDeleteStage, hd1]
    rfl
  · simp only [reconcileDelete, deleteOrder, runDeleteLoop, runDeleteStage, hd1]
    rfl
  · intro rq b q hrem
    simp only [reconcileDelete, deleteOrder, runDeleteLoop, runDeleteStage] at hrem
    repeat' split at hrem
    all_goals simp_all

/-- Witness for C4 at the RUNNING fixture. -/
theorem delete_pipeline_running_scenario_witness :
    (reconcileDelete reqFix bsFix provFix).result = .requeueAfter 5 ∧
    (reconcileDelete reqFix bsFix provFix).events =
      [Event.call (.terminateInstance "i-1")] ∧
    (reconcileDelete reqFix bsFix provFix).bs.instanceStatus = some "Terminating" ∧
    (reconcileDelete reqFix bsFix provFix).finalizerRemoved = false := by
  have h := delete_pipeline_running_scenario reqFix bsFix provFix "i-1"
    ⟨"i-1", "running", managedTags, [⟨some ⟨some "198.51.100.7"⟩⟩]⟩
    rfl rfl (by decide) rfl rfl
  exact ⟨h.1, h.2.1, h.2.2.1, h.2.2.2.1⟩

theorem countPersist_append (a b : List Event) :
    countPersist (a ++ b) = countPersist a + countPersist b := by
  simp [countPersist, List.filter_append]

theorem countPersist_map_call (cs : List Call) :
    countPersist (cs.map Event.call) = 0 := by
  induction cs with
  | nil => rfl
  | cons c cs ih => simpa [countPersist, isPersistEvent, List.filter] using ih

/-- The delete pipeline never persists the BuildState itself. -/
theorem runDeleteLoop_no_persist (req : BuildRequest) :
    ∀ (sts : List Stage) (bs : BuildState) (p : Provider) (evs : List Event),
      countPersist (runDeleteLoop req sts bs p evs).events = countPersist evs := by
  intro sts
  induction sts with
  | nil =>
    intro bs p evs
    rfl
  | cons st rest ih =>
    intro bs p evs
    simp only [runDeleteLoop]
    split
    · rw [ih, countPersist_append, countPersist_map_call]
      omega
    · split <;> simp [countPersist_append, countPersist_map_call]
    · simp [countPersist_append, countPersist_map_call]


/-- The reconcile loop of the normal path never persists by itself. -/
theorem runNormalLoop_no_persist (req : BuildRequest) :
    ∀ (sts : List Stage) (bs : BuildState) (p : Provider) (evs : List Event),
      countPersist (runNormalLoop req sts bs p evs).2.2.2 = countPersist evs := by
  intro sts
  induction sts with
  | nil =>
    intro bs p evs
    rfl
  | cons st rest ih =>
    intro bs p evs
    simp only [runNormalLoop]
    split
    · rw [ih, countPersist_append, countPersist_map_call]
      omega
    · simp [countPersist_append, countPersist_map_call]

theorem createOrGetVPC_preserves_ready (req : BuildRequest) (bs : BuildState)
    (p : Provider) : (createOrGetVPC req bs p).2.1.ready = bs.ready := by
  simp only [createOrGetVPC]
  repeat' split
  all_goals rfl

/-- No stage's `Reconcile` writes the Ready flag (only the orchestrator
does, after the whole pipeline). -/
theorem stage_reconcile_preserves_ready (st : Stage) (req : BuildRequest)
    (bs : BuildState) (p : Provider) :
    (runReconcileStage st req bs p).bs.ready = bs.ready := by
  cases st
  case network =>
    have h := createOrGetVPC_preserves_ready req bs p
    simp only [runReconcileStage, networksReconcile]
    split
    all_goals rename_i heq
    all_goals rw [heq] at h
    · simpa using h
    · split <;> simpa using h
  case subnet =>
    simp only [runReconcileStage, subnetReconcile]
    repeat' split
    all_goals rfl
  case securityGroup =>
    simp only [runReconcileStage, securityGroupReconcile]
    repeat' split
    all_goals rfl
  case instances =>
    simp only [runReconcileStage, instancesReconcile]
    repeat' split
    all_goals rfl
  case imageExport =>
    simp only [runReconcileStage, imagesReconcile]
    repeat' split
    all_goals rfl

theorem runNormalLoop_preserves_ready (req : BuildRequest) :
    ∀ (sts : List Stage) (bs : BuildState) (p : Provider) (evs : List Event),
      ((runNormalLoop req sts bs p evs).2.1).ready = bs.ready := by
  intro sts
  induction sts with
  | nil =>
    intro bs p evs
    rfl
  | cons st rest ih =>
    intro bs p evs
    simp only [runNormalLoop]
    split
    · rw [ih, stage_reconcile_preserves_ready]
    · exact stage_reconcile_preserves_ready st req bs p

theorem countPersist_nil : countPersist [] = 0 := rfl

theorem countPersist_persist_single (b : BuildState) :
    countPersist [Event.persist b] = 1 := rfl

theorem countPersist_pair (a b : BuildState) :
    countPersist [Event.persist a, Event.persist b] = 2 := rfl

/-- C9 counterexample: an invocation on a not-ready BuildState whose five
stages all succeed persists the BuildState twice — once via `PatchObject`
right after adding the finalizer, and once via the deferred `Close` — not
exactly once. -/
theorem persist_twice_counterexample :
    countPersist (reconcileAWSBuild reqFix bsFix provFix false false).events = 2 := by
  rfl

/-- C9 (amended): every orchestrator invocation ends with a persistence
of the final in-memory BuildState via the deferred scope `Close` (so
mutations made by stages that ran before a mid-pipeline failure are
persisted), and the total number of persistences is exactly two when a
normal-path pass on a not-ready build completes the reconciler loop
successfully (the explicit `PatchObject` issued right after the loop
adds the finalizer, plus the `Close`), and exactly one in every other
case: delete-path passes regardless of whether they succeed, requeue or
fail, normal passes on a ready build, and passes that stop before
completing the reconciler loop. -/
theorem persist_at_end_behavior (req : BuildRequest) (bs : BuildState) (p : Provider)
    (deleting hasFin : Bool) :
    (reconcileAWSBuild req bs p deleting hasFin).events.getLast? =
      some (.persist (reconcileAWSBuild req bs p deleting hasFin).bs) ∧
    countPersist (reconcileAWSBuild req bs p deleting hasFin).events =
      (if (deleting && hasFin) = false ∧ req.hasSSHKey = true ∧ bs.ready = false ∧
          (runNormalLoop req normalOrder bs p []).1 = .ok then 2 else 1) := by
  constructor
  · simp only [reconcileAWSBuild]
    split <;> simp [List.getLast?_concat]
  · simp only [reconcileAWSBuild]
    by_cases hbr : (deleting && hasFin) = true
    · rw [if_pos hbr, if_neg (by simp [hbr])]
      have h0 : countPersist (reconcileDelete req bs p).events = 0 := by
        simpa [countPersist_nil] using runDeleteLoop_no_persist req deleteOrder bs p []
      simp [countPersist_append, h0, countPersist_persist_single]
    · have hbr' : (deleting && hasFin) = false := by simpa using hbr
      rw [if_neg hbr]
      simp only [reconcileNormal]
      by_cases hssh : req.hasSSHKey
      · simp only [hssh, Bool.not_true, Bool.false_eq_true, if_false]
        by_cases hready : bs.ready
        · simp only [hready, Bool.not_true, Bool.false_eq_true, if_false]
          rw [if_neg (by simp)]
          simp only [reconcileNormalTail]
          by_cases hclean : bs.ready && !bs.cleanedUP
          · rw [if_pos hclean]
            have h0 : countPersist (reconcileDelete req bs p).events = 0 := by
              simpa [countPersist_nil] using runDeleteLoop_no_persist req deleteOrder bs p []
            simp [countPersist_append, countPersist_nil, h0, countPersist_persist_single]
          · rw [if_neg hclean]
            repeat' split
            all_goals simp [countPersist_append, countPersist_nil,
              countPersist_persist_single]
        · have hready' : bs.ready = false := by simpa using hready
          rw [if_pos (show (!bs.ready) = true by simp [hready'])]
          rcases hloop : runNormalLoop req normalOrder bs p [] with ⟨o, bs1, p1, evs1⟩
          have hev : countPersist evs1 = 0 := by
            have h := runNormalLoop_no_persist req normalOrder bs p []
            rw [hloop] at h
            simpa [countPersist] using h
          have hrd : bs1.ready = false := by
            have h := runNormalLoop_preserves_ready req normalOrder bs p []
            rw [hloop] at h
            simpa [hready'] using h
          cases o with
          | ok =>
            rw [if_pos (by simp [hbr', hssh, hready'])]
            simp only [reconcileNormalTail, hrd, Bool.false_and, Bool.false_eq_true,
              if_false]
            repeat' split
            all_goals simp [countPersist_append, countPersist_persist_single,
              countPersist_pair, countPersist_nil, hev]
          | err e2 =>
            rw [if_neg (by simp)]
            simp [countPersist_append, countPersist_persist_single, hev]
          | panic m =>
            rw [if_neg (by simp)]
            simp [countPersist_append, countPersist_persist_single, hev]
      · have hssh' : req.hasSSHKey = false := by simpa using hssh
        rw [if_pos (show (!req.hasSSHKey) = true by simp [hssh'])]
        rw [if_neg (by simp [hssh'])]
        simp [countPersist_append, countPersist_nil, countPersist_persist_single]

/-- Witness for the amended C9: the fixture's not-ready normal pass (whose
five reconcilers all succeed) persists exactly twice, and the fixture's
delete-path pass (which requeues on the not-terminated sentinel) persists
exactly once. -/
theorem persist_at_end_behavior_witness :
    countPersist (reconcileAWSBuild reqFix bsFix provFix false false).events = 2 ∧
    countPersist (reconcileAWSBuild reqFix bsFix provFix true true).events = 1 := by
  constructor
  · have h := (persist_at_end_behavior reqFix bsFix provFix false false).2
    rw [h, if_pos]
    exact ⟨rfl, rfl, rfl, by rfl⟩
  · have h := (persist_at_end_behavior reqFix bsFix provFix true true).2
    rw [h, if_neg]
    intro hc
    exact absurd hc.1 (by simp)

/-! ### Idempotence of the reconcilers -/

theorem createSubnetOp_finds (p : Provider) (nm : String) (vid : Option String)
    (sn : Subnet) (p1 : Provider) (cs : List Call)
    (h : createSubnetOp p nm vid = .ok (sn, p1, cs)) :
    findSubnet p1 sn.subnetId = some sn := by
  simp only [createSubnetOp] at h
  repeat' split at h
  all_goals cases h
  simp only [findSubnet]
  rw [List.find?_cons_of_pos _ (by simp)]

theorem subnetReconcile_idem (req : BuildRequest) (bs : BuildState) (p : Provider) :
    (subnetReconcile req
        (subnetReconcile req bs p).bs (subnetReconcile req bs p).prov).bs =
      (subnetReconcile req bs p).bs ∧
    (subnetReconcile req
        (subnetReconcile req bs p).bs (subnetReconcile req bs p).prov).calls = [] := by
  cases hid : bs.subnetID with
  | some id =>
    cases hfind : findSubnet p id with
    | none =>
      have hlook : findSubnetByID p id = .error .notFound := by
        simp [findSubnetByID, hfind]
      simp [subnetReconcile, hid, hlook]
    | some sn =>
      have heq : sn.subnetId = id := by
        have h2 : List.find? (fun s => s.subnetId == id) p.subnets = some sn := hfind
        have h3 := List.find?_some h2
        simp only at h3
        exact eq_of_beq h3
      have hlook : findSubnetByID p id = .ok sn := by
        simp [findSubnetByID, hfind]
      have hfind2 : findSubnet p sn.subnetId = some sn := by
        rw [heq]
        exact hfind
      have hlook2 : findSubnetByID p sn.subnetId = .ok sn := by
        simp [findSubnetByID, hfind2]
      simp [subnetReconcile, hid, hlook, hlook2]
  | none =>
    cases hc : createSubnetOp p (vpcNameOf req bs) bs.vpcID with
    | error e => simp [subnetReconcile, hid, hc]
    | ok t =>
      rcases t with ⟨sn, p1, cs⟩
      have hfind2 := createSubnetOp_finds p (vpcNameOf req bs) bs.vpcID sn p1 cs hc
      have hlook2 : findSubnetByID p1 sn.subnetId = .ok sn := by
        simp [findSubnetByID, hfind2]
      simp [subnetReconcile, hid, hc, hlook2]

theorem securityGroupReconcile_idem (req : BuildRequest) (bs : BuildState) (p : Provider) :
    (securityGroupReconcile req
        (securityGroupReconcile req bs p).bs (securityGroupReconcile req bs p).prov).bs =
      (securityGroupReconcile req bs p).bs ∧
    (securityGroupReconcile req
        (securityGroupReconcile req bs p).bs (securityGroupReconcile req bs p).prov).calls = [] := by
  cases hsg : bs.securityGroupID with
  | some id => simp [securityGroupReconcile, hsg]
  | none =>
    cases hv : bs.vpcID with
    | none => simp [securityGroupReconcile, hsg, hv]
    | some vid => simp [securityGroupReconcile, hsg, hv]

theorem createInstanceOp_finds (p : Provider) (input : CreateInstanceParams)
    (inst : Instance) (p1 : Provider) (cs : List Call)
    (h : createInstanceOp p input = .ok (inst, p1, cs)) :
    findInstance p1 inst.instanceId = some inst := by
  simp only [createInstanceOp] at h
  repeat' split at h
  all_goals cases h
  all_goals simp only [findInstance]
  all_goals rw [List.find?_cons_of_pos _ (by simp)]

theorem findInstance_self (p : Provider) (id : String) (inst : Instance)
    (hfind : findInstance p id = some inst) :
    findInstance p inst.instanceId = some inst := by
  have h2 : List.find? (fun i => i.instanceId == id) p.instances = some inst := hfind
  have h3 := List.find?_some h2
  simp only at h3
  have heq := eq_of_beq h3
  show List.find? (fun i => i.instanceId == inst.instanceId) p.instances = some inst
  rw [heq]
  exact h2

theorem createInstancePath_found (req : BuildRequest) (bs : BuildState) (p : Provider)
    (inst : Instance) (p1 : Provider) (cs : List Call)
    (h : createInstancePath req bs p = .found inst p1 cs) :
    findInstance p1 inst.instanceId = some inst := by
  simp only [createInstancePath] at h
  repeat' split at h
  all_goals try cases h
  all_goals rename_i hop
  all_goals exact createInstanceOp_finds p _ inst p1 cs (by rw [hop])

theorem createOrGetInstance_found (req : BuildRequest) (bs : BuildState) (p : Provider)
    (inst : Instance) (p1 : Provider) (cs : List Call)
    (h : createOrGetInstance req bs p = .found inst p1 cs) :
    findInstance p1 inst.instanceId = some inst := by
  simp only [createOrGetInstance] at h
  cases hid : bs.instanceID with
  | some id =>
    rw [hid] at h
    simp only at h
    cases hf : findInstance p id with
    | some i0 =>
      rw [hf] at h
      cases h
      exact findInstance_self p id inst hf
    | none =>
      rw [hf] at h
      exact createInstancePath_found req bs p inst p1 cs h
  | none =>
    rw [hid] at h
    exact createInstancePath_found req bs p inst p1 cs h

theorem instancesReconcile_idem (req : BuildRequest) (bs : BuildState) (p : Provider) :
    (instancesReconcile req
        (instancesReconcile req bs p).bs (instancesReconcile req bs p).prov).bs =
      (instancesReconcile req bs p).bs ∧
    (instancesReconcile req
        (instancesReconcile req bs p).bs (instancesReconcile req bs p).prov).calls = [] := by
  cases h1 : createOrGetInstance req bs p with
  | failed e => simp [instancesReconcile, h1]
  | panicked m => simp [instancesReconcile, h1]
  | found inst p1 cs =>
    have hfind := createOrGetInstance_found req bs p inst p1 cs h1
    cases hip : derivePublicIP inst.networkInterfaces with
    | error m =>
      have h2 : createOrGetInstance req
          { bs with instanceID := some inst.instanceId } p1 = .found inst p1 [] := by
        simp [createOrGetInstance, hfind]
      simp [instancesReconcile, h1, hip, h2]
    | ok pub =>
      have h2 : createOrGetInstance req
          { bs with instanceID := some inst.instanceId,
                    instanceStatus := some inst.stateName.toUpper } p1 = .found inst p1 [] := by
        simp [createOrGetInstance, hfind]
      simp [instancesReconcile, h1, hip, h2]

theorem ensure_output_clean (p : Provider) (nm : String) (bt : Nat) :
    ∀ i ∈ ((ensureAMIDoesNotExistOp p nm bt).1).images,
      (i.name == nm && decide (i.creationDate < bt)) = false := by
  intro i hi
  simp only [ensureAMIDoesNotExistOp] at hi
  rw [List.mem_filter] at hi
  have h2 := hi.2
  rw [Bool.not_eq_true'] at h2
  exact h2

theorem ensure_noop_of_clean (p : Provider) (nm : String) (bt : Nat)
    (hclean : ∀ i ∈ p.images, (i.name == nm && decide (i.creationDate < bt)) = false) :
    ensureAMIDoesNotExistOp p nm bt = (p, []) := by
  simp only [ensureAMIDoesNotExistOp, describeImagesByName]
  have h1 : p.images.filter
      (fun i => !(i.name == nm && decide (i.creationDate < bt))) = p.images := by
    rw [List.filter_eq_self]
    intro a ha
    simp [hclean a ha]
  have h2 : (p.images.filter (fun i => i.name == nm)).filter
      (fun i => decide (i.creationDate < bt)) = [] := by
    rw [List.filter_eq_nil_iff]
    intro a ha
    rw [List.mem_filter] at ha
    have := hclean a ha.1
    rw [ha.2] at this
    simpa using this
  rw [h1, h2]
  simp

theorem createAMI_clean (p : Provider) (nm : String) (bt : Nat) (hnow : bt ≤ p.now)
    (hclean : ∀ i ∈ p.images, (i.name == nm && decide (i.creationDate < bt)) = false) :
    ∀ i ∈ ((createAMIOp p nm).1).images,
      (i.name == nm && decide (i.creationDate < bt)) = false := by
  intro i hi
  simp only [createAMIOp] at hi
  rcases List.mem_cons.mp hi with h | h
  · subst h
    simp [Nat.not_lt.mpr hnow]
  · exact hclean i h

theorem imagesReconcile_idem (req : BuildRequest) (bs : BuildState) (p : Provider)
    (hclock : req.creationTime ≤ p.now) :
    (imagesReconcile req
        (imagesReconcile req bs p).bs (imagesReconcile req bs p).prov).bs =
      (imagesReconcile req bs p).bs ∧
    (imagesReconcile req
        (imagesReconcile req bs p).bs (imagesReconcile req bs p).prov).calls = [] := by
  cases hgate : (!req.provisionersReady || bs.ready) with
  | true => simp [imagesReconcile, hgate]
  | false =>
    cases hid : bs.instanceID with
    | none => simp [imagesReconcile, hgate, hid]
    | some iid =>
      have hclean1 := ensure_output_clean p req.name req.creationTime
      have hnoop1 := ensure_noop_of_clean ((ensureAMIDoesNotExistOp p req.name req.creationTime).1)
        req.name req.creationTime hclean1
      rcases hchk : checkAMIStatusOp
          ((ensureAMIDoesNotExistOp p req.name req.creationTime).1) req.name with ⟨aid, ast⟩
      by_cases hav : ast = "available"
      · subst hav
        simp [imagesReconcile, hgate, hid, hchk, hnoop1]
      · by_cases hpd : ast = "pending"
        · subst hpd
          simp [imagesReconcile, hgate, hid, hchk, hnoop1, hav]
        · -- default: a create-image call happens on the first pass only
          have hnow1 : ((ensureAMIDoesNotExistOp p req.name req.creationTime).1).now = p.now := rfl
          have hclean2 := createAMI_clean
            ((ensureAMIDoesNotExistOp p req.name req.creationTime).1) req.name
            req.creationTime (by rw [hnow1]; exact hclock) hclean1
          have hnoop2 := ensure_noop_of_clean
            ((createAMIOp ((ensureAMIDoesNotExistOp p req.name req.creationTime).1) req.name).1)
            req.name req.creationTime hclean2
          have hchk2 : checkAMIStatusOp
              ((createAMIOp ((ensureAMIDoesNotExistOp p req.name req.creationTime).1) req.name).1)
              req.name =
              (freshId ((ensureAMIDoesNotExistOp p req.name req.creationTime).1) "ami-",
                "pending") := by
            simp [checkAMIStatusOp, createAMIOp, describeImagesByName, List.filter_cons]
          simp [imagesReconcile, hgate, hid, hchk, hnoop2, hchk2, hav, hpd]

theorem find?_vpcId_self {l : List Vpc} {v : Vpc} (hmem : v ∈ l)
    (huniq : l.Pairwise (fun a b => a.vpcId ≠ b.vpcId)) :
    l.find? (fun x => x.vpcId == v.vpcId) = some v := by
  induction l with
  | nil => cases hmem
  | cons a t ih =>
    rcases List.mem_cons.mp hmem with h | h
    · subst h
      exact List.find?_cons_of_pos _ (by simp)
    · have hne : a.vpcId ≠ v.vpcId := (List.pairwise_cons.mp huniq).1 v h
      rw [List.find?_cons_of_neg _ (by simpa using hne)]
      exact ih h (List.pairwise_cons.mp huniq).2

theorem configureRouteTable_frame (p : Provider) (vid : String) (p1 : Provider)
    (cs : List Call) (h : configureRouteTableOp p vid = .ok (p1, cs)) :
    p1.vpcs = p.vpcs ∧ ∀ c ∈ cs, isCreateCall c = false := by
  simp only [configureRouteTableOp] at h
  split at h
  · cases h
  · cases h
    exact ⟨rfl, by simp [isCreateCall]⟩

theorem igwOp_frame (p : Provider) (vid : String) :
    ((createOrGetInternetGatewayOp p vid).2.1).vpcs = p.vpcs ∧
    ∀ c ∈ (createOrGetInternetGatewayOp p vid).2.2, isCreateCall c = false := by
  simp only [createOrGetInternetGatewayOp]
  split
  · split
    · exact ⟨rfl, by simp⟩
    · rename_i p1 cs heq
      exact ⟨(configureRouteTable_frame _ _ _ _ heq).1,
             (configureRouteTable_frame _ _ _ _ heq).2⟩
  · split
    · exact ⟨rfl, by simp [isCreateCall]⟩
    · rename_i p2 cs heq
      refine ⟨(configureRouteTable_frame _ _ _ _ heq).1, ?_⟩
      intro c hc
      rcases List.mem_cons.mp hc with h | h
      · subst h; rfl
      · exact (configureRouteTable_frame _ _ _ _ heq).2 c h

theorem createOrGetVPC_ok (req : BuildRequest) (bs : BuildState) (p : Provider)
    (huniq : p.vpcs.Pairwise (fun a b => a.vpcId ≠ b.vpcId)) :
    ∃ v, (createOrGetVPC req bs p).1 = .ok v ∧
      (createOrGetVPC req bs p).2.1 =
        { bs with vpcID := some v.vpcId, networkName := getNameFromTags v.tags } ∧
      findVpc ((createOrGetVPC req bs p).2.2.1) v.vpcId = some v := by
  cases hf : findVPCByIDOrName p bs.vpcID (some (vpcNameOf req bs)) with
  | some v =>
    refine ⟨v, by simp [createOrGetVPC, hf], by simp [createOrGetVPC, hf], ?_⟩
    have hp : (createOrGetVPC req bs p).2.2.1 = p := by simp [createOrGetVPC, hf]
    rw [hp]
    unfold findVPCByIDOrName at hf
    cases hb : bs.vpcID.bind (findVpc p) with
    | some w =>
      simp only [hb] at hf
      injection hf with hwv
      subst hwv
      cases hvid : bs.vpcID with
      | none => simp [hvid] at hb
      | some id0 =>
        simp only [hvid, Option.some_bind] at hb
        unfold findVpc at hb ⊢
        have hpred := List.find?_some hb
        rw [eq_of_beq hpred]
        exact hb
    | none =>
      simp only [hb] at hf
      have hmem := List.mem_of_find?_eq_some hf
      unfold findVpc
      exact find?_vpcId_self hmem huniq
  | none =>
    refine ⟨⟨"vpc-" ++ toString p.nextId, vpcSpecCIDR,
      [⟨"Name", vpcNameOf req bs⟩, ⟨"forge-managed", "true"⟩]⟩, ?_, ?_, ?_⟩
    · simp [createOrGetVPC, hf, createVpcOp]
    · simp [createOrGetVPC, hf, createVpcOp, getNameFromTags]
    · simp [createOrGetVPC, hf, createVpcOp, findVpc]

theorem networksReconcile_idem (req : BuildRequest) (bs : BuildState) (p : Provider)
    (huniq : p.vpcs.Pairwise (fun a b => a.vpcId ≠ b.vpcId)) :
    (networksReconcile req
        (networksReconcile req bs p).bs (networksReconcile req bs p).prov).bs =
      (networksReconcile req bs p).bs ∧
    ∀ c ∈ (networksReconcile req
        (networksReconcile req bs p).bs (networksReconcile req bs p).prov).calls,
      isCreateCall c = false := by
  obtain ⟨v, h1, h2, h3⟩ := createOrGetVPC_ok req bs p huniq
  rcases he : createOrGetVPC req bs p with ⟨o, bsA, pA, csA⟩
  rw [he] at h1 h2 h3
  dsimp only at h1 h2 h3
  subst h1
  rcases hig : createOrGetInternetGatewayOp pA v.vpcId with ⟨o2, p2, cs2⟩
  have hbs1 : (networksReconcile req bs p).bs = bsA := by
    simp only [networksReconcile, he, hig]
    cases o2 <;> rfl
  have hprov1 : (networksReconcile req bs p).prov = p2 := by
    simp only [networksReconcile, he, hig]
    cases o2 <;> rfl
  have hvv2 : findVpc p2 v.vpcId = some v := by
    have hvpcs : p2.vpcs = pA.vpcs := by
      have hfr := (igwOp_frame pA v.vpcId).1
      rw [hig] at hfr
      exact hfr
    unfold findVpc at h3 ⊢
    rw [hvpcs]
    exact h3
  have hvid : bsA.vpcID = some v.vpcId := by rw [h2]
  have hfind2 : findVPCByIDOrName p2 bsA.vpcID (some (vpcNameOf req bsA)) = some v := by
    simp [findVPCByIDOrName, hvid, hvv2]
  have hsecond : createOrGetVPC req bsA p2 = (.ok v, bsA, p2, []) := by
    simp only [createOrGetVPC, hfind2]
    rw [h2]
  rcases hig2 : createOrGetInternetGatewayOp p2 v.vpcId with ⟨o3, p3, cs3⟩
  have hbs2 : (networksReconcile req bsA p2).bs = bsA := by
    simp only [networksReconcile, hsecond, hig2]
    cases o3 <;> rfl
  have hcalls2 : (networksReconcile req bsA p2).calls = cs3 := by
    simp only [networksReconcile, hsecond, hig2]
    cases o3 <;> rfl
  constructor
  · rw [hbs1, hprov1]
    exact hbs2
  · rw [hbs1, hprov1, hcalls2]
    intro c hc
    have hfr := (igwOp_frame p2 v.vpcId).2
    rw [hig2] at hfr
    exact hfr c hc

/-- C7: for every stage, running `Reconcile` twice in a row with no
external change to the provider between the calls yields the same
BuildState as after the first call, and the second call issues none of
the five create calls (create-VPC, create-subnet, create-security-group,
run-instances, create-image).  Two well-formedness hypotheses: the build
was created no later than the provider clock, and the provider's VPC ids
are pairwise distinct. -/
theorem reconcile_idempotent (st : Stage) (req : BuildRequest) (bs : BuildState)
    (p : Provider) (hclock : req.creationTime ≤ p.now)
    (huniq : p.vpcs.Pairwise (fun a b => a.vpcId ≠ b.vpcId)) :
    (runReconcileStage st req
        (runReconcileStage st req bs p).bs (runReconcileStage st req bs p).prov).bs =
      (runReconcileStage st req bs p).bs ∧
    ∀ c ∈ (runReconcileStage st req
        (runReconcileStage st req bs p).bs (runReconcileStage st req bs p).prov).calls,
      isCreateCall c = false := by
  cases st with
  | network =>
    simp only [runReconcileStage]
    exact networksReconcile_idem req bs p huniq
  | subnet =>
    simp only [runReconcileStage]
    obtain ⟨h1, h2⟩ := subnetReconcile_idem req bs p
    exact ⟨h1, by intro c hc; rw [h2] at hc; cases hc⟩
  | securityGroup =>
    simp only [runReconcileStage]
    obtain ⟨h1, h2⟩ := securityGroupReconcile_idem req bs p
    exact ⟨h1, by intro c hc; rw [h2] at hc; cases hc⟩
  | instances =>
    simp only [runReconcileStage]
    obtain ⟨h1, h2⟩ := instancesReconcile_idem req bs p
    exact ⟨h1, by intro c hc; rw [h2] at hc; cases hc⟩
  | imageExport =>
    simp only [runReconcileStage]
    obtain ⟨h1, h2⟩ := imagesReconcile_idem req bs p hclock
    exact ⟨h1, by intro c hc; rw [h2] at hc; cases hc⟩

theorem reconcile_idempotent_witness :
    (reqFix.creationTime ≤ provFix.now ∧
      provFix.vpcs.Pairwise (fun a b => a.vpcId ≠ b.vpcId)) ∧
    ((runReconcileStage .network reqFix
        (runReconcileStage .network reqFix bsFix provFix).bs
        (runReconcileStage .network reqFix bsFix provFix).prov).bs =
      (runReconcileStage .network reqFix bsFix provFix).bs ∧
    ∀ c ∈ (runReconcileStage .network reqFix
        (runReconcileStage .network reqFix bsFix provFix).bs
        (runReconcileStage .network reqFix bsFix provFix).prov).calls,
      isCreateCall c = false) :=
  ⟨⟨by decide, by decide⟩,
   reconcile_idempotent .network reqFix bsFix provFix (by decide) (by decide)⟩
